import Mathlib

/-!
Shallow embedding of the insulation-calculation core
(`Isolierung_logic.py`) over exact rational arithmetic.

Python floats are modelled by `ℚ`; exceptions by `Except String`.
The SQLite material store is modelled as a pure lookup function
`MaterialStore : Nat → Option Material` (lookup-by-id, `none` for the
not-found failure of `get_material`).
-/

set_option autoImplicit false
set_option maxRecDepth 4000

namespace Isolierung

/-- `Material` dataclass: optional constant conductivity and a list of
(temperature, conductivity) sample points.  The identity/name/notes fields
only feed error-message text and are dropped. -/
structure Material where
  k_const : Option ℚ
  k_points : List (ℚ × ℚ)
  deriving Repr, DecidableEq

/-- The two values of the `mode` literal of a `Layer`. -/
inductive LayerMode where
  | material
  | custom
  deriving Repr, DecidableEq

/-- `Layer` dataclass fields (the `note` field is dropped). -/
structure Layer where
  thickness_mm : ℚ
  mode : LayerMode
  material_id : Option Nat
  use_kT : Bool
  k_const : Option ℚ
  deriving Repr, DecidableEq

/-- `Layer.__post_init__`: the validation run on construction; `.ok ()`
means the constructor returns normally, `.error` a raised `ValueError`. -/
def Layer.post_init (l : Layer) : Except String Unit :=
  if l.thickness_mm ≤ 0 then .error "Layer thickness must be positive."
  else
    match l.mode with
    | .material =>
        if l.material_id = none then .error "Material layers require a material_id."
        else if l.use_kT = false ∧ l.k_const ≠ none then
          .error "Material layers must not provide k_const when use_kT is False."
        else .ok ()
    | .custom =>
        if l.material_id ≠ none then .error "Custom layers must not reference a material_id."
        else if l.use_kT = false then
          match l.k_const with
          | none => .error "Custom layers require a positive k_const value."
          | some k =>
              if k ≤ 0 then .error "Custom layers require a positive k_const value."
              else .ok ()
        else .ok ()

/-- The material store: `get_material` as a pure lookup. -/
def MaterialStore := Nat → Option Material

/-- `get_material`: lookup by id, raising `KeyError` when absent. -/
def get_material (store : MaterialStore) (material_id : Nat) : Except String Material :=
  match store material_id with
  | none => .error "Material not found."
  | some m => .ok m

/-- Stable insertion of one sample point into a temperature-sorted list
(inserted before the first point with a key not below its own). -/
def insertPt (p : ℚ × ℚ) : List (ℚ × ℚ) → List (ℚ × ℚ)
  | [] => [p]
  | q :: qs => if p.1 ≤ q.1 then p :: q :: qs else q :: insertPt p qs

/-- `sorted(points, key=lambda item: item[0])`: stable sort by temperature. -/
def sortPoints : List (ℚ × ℚ) → List (ℚ × ℚ)
  | [] => []
  | p :: ps => insertPt p (sortPoints ps)

/-- The bracketing-interval scan of `interp_k`: walk over consecutive pairs,
returning the linear interpolation at the first interval `[T0, T1]` with
`T0 ≤ T_C ≤ T1` (the degenerate interval `T1 = T0` returns `k1`). -/
def scanBrackets (T_C : ℚ) : List (ℚ × ℚ) → Option ℚ
  | (T0, k0) :: (T1, k1) :: rest =>
      if T0 ≤ T_C ∧ T_C ≤ T1 then
        some (if T1 = T0 then k1 else k0 + (T_C - T0) / (T1 - T0) * (k1 - k0))
      else scanBrackets T_C ((T1, k1) :: rest)
  | _ => none

/-- Body of `interp_k` on a non-empty sorted point list: single point,
clamping below the first / above the last sample, then the bracket scan
(whose trailing `return points[-1][1]` is the `none` fallback). -/
def interpSorted (points : List (ℚ × ℚ)) (T_C : ℚ) : ℚ :=
  match points with
  | [] => 0
  | [p] => p.2
  | p0 :: p1 :: rest =>
      let plast := (p1 :: rest).getLast (by simp)
      if T_C ≤ p0.1 then p0.2
      else if plast.1 ≤ T_C then plast.2
      else
        match scanBrackets T_C (p0 :: p1 :: rest) with
        | some k => k
        | none => plast.2

/-- `interp_k(material, T_C, mode=...)`: piece-wise linear interpolation with
fallback to `k_const` when the material has no sample points. -/
def interp_k (material : Material) (T_C : ℚ) (mode : String) : Except String ℚ :=
  if material.k_points ≠ [] then
    if mode ≠ "clamp" then
      .error "Only the clamp interpolation mode is currently supported."
    else .ok (interpSorted (sortPoints material.k_points) T_C)
  else
    match material.k_const with
    | none => .error "Material has neither k_points nor k_const defined."
    | some k => .ok k

/-- The `_interp_material_k` closure of `solve_multilayer_kT`: clamp mode
delegates to `interp_k`; strict mode (`clamp = false`) falls back to
`k_const` on an empty point list and otherwise range-checks the query
against the sorted points before delegating. -/
def interp_material_k (clamp : Bool) (material : Material) (T_C : ℚ) :
    Except String ℚ :=
  if clamp then interp_k material T_C "clamp"
  else
    match sortPoints material.k_points with
    | [] =>
        match material.k_const with
        | none => .error "Material does not provide k(T) data for interpolation."
        | some k => .ok k
    | p :: ps =>
        let min_T := p.1
        let max_T := ((p :: ps).getLast (by simp)).1
        if T_C < min_T ∨ max_T < T_C then
          .error "Temperature is outside the available k(T) data."
        else interp_k material T_C "clamp"

/-- The result dictionary of both solvers, as a record. -/
structure SolveResult where
  q_W_m2 : ℚ
  interface_T_C : List ℚ
  x_m : List ℚ
  T_profile_C : List ℚ
  deriving Repr, DecidableEq

/-- The resistance loop of `_solve_constant_k`: `thickness / k` per layer,
raising on the first non-positive conductivity (zip truncates to the
shorter list, as in Python). -/
def mkResistances : List ℚ → List ℚ → Except String (List ℚ)
  | t :: ts, k :: ks =>
      if k ≤ 0 then .error "Thermal conductivity must be positive."
      else
        match mkResistances ts ks with
        | .error e => .error e
        | .ok rest => .ok (t / k :: rest)
  | _, _ => .ok []

/-- The left-to-right temperature walk `T_i = T_{i-1} - q * R_i`,
starting from the left-surface temperature. -/
def walkTemps (T0 q : ℚ) : List ℚ → List ℚ
  | [] => [T0]
  | R :: Rs => T0 :: walkTemps (T0 - q * R) q Rs

/-- Running sum of segment widths starting from `a` (the `x_m` loop). -/
def cumFrom (a : ℚ) : List ℚ → List ℚ
  | [] => [a]
  | t :: ts => a :: cumFrom (a + t) ts

/-- `_solve_constant_k`: the linear resistance solver. -/
def solve_constant_k (layers : List Layer) (k_values : List ℚ)
    (T_left_C T_inf_C h_W_m2K : ℚ) : Except String SolveResult :=
  let thickness_m := layers.map (fun l => l.thickness_mm / 1000)
  match mkResistances thickness_m k_values with
  | .error e => .error e
  | .ok resistances =>
      let R_conv := 1 / h_W_m2K
      let total_resistance := resistances.sum + R_conv
      let q := (T_left_C - T_inf_C) / total_resistance
      let interface_temperatures := walkTemps T_left_C q resistances
      let x_m := cumFrom 0 thickness_m
      .ok ⟨q, interface_temperatures, x_m, interface_temperatures⟩

/-- Per-layer descriptor built by the resolution loop of
`solve_multilayer_kT` (also reused unchanged as the per-cell record). -/
structure CellSpec where
  dx : ℚ
  use_kT : Bool
  material : Option Material
  k_const : ℚ
  deriving Repr, DecidableEq

/-- The per-layer resolution step of `solve_multilayer_kT`: cell width,
material lookup, representative conductivity at `T_mid`, and the final
positivity check.  Python `assert` failures are modelled as errors. -/
def resolveLayer (store : MaterialStore) (cells_per_layer : Nat) (T_mid : ℚ)
    (layer : Layer) : Except String CellSpec :=
  let thickness_m := layer.thickness_mm / 1000
  let dx := thickness_m / (cells_per_layer : ℚ)
  if dx ≤ 0 then .error "Layer thickness must be positive."
  else
    let withCheck : ℚ → Option Material → Except String CellSpec := fun k mat =>
      if k ≤ 0 then .error "Thermal conductivity must be positive for all layers."
      else .ok ⟨dx, layer.use_kT, mat, k⟩
    match layer.mode with
    | .material =>
        match layer.material_id with
        | none => .error "AssertionError: material_id expected"
        | some mid =>
            match get_material store mid with
            | .error e => .error e
            | .ok material =>
                if layer.use_kT then
                  if material.k_points = [] ∧ material.k_const = none then
                    .error "Material does not provide k(T) data."
                  else
                    match interp_k material T_mid "clamp" with
                    | .error e => .error e
                    | .ok k => withCheck k (some material)
                else
                  match material.k_const with
                  | none => .error "Material does not define a constant k value."
                  | some k => withCheck k (some material)
    | .custom =>
        if layer.use_kT then
          .error "Custom layers do not support temperature dependent k(T)."
        else
          match layer.k_const with
          | none => .error "AssertionError: k_const expected"
          | some k => withCheck k none

/-- Sequential `Except`-valued map, modelling the Python `for` loops that
raise out of the first failing element. -/
def mapE {α β : Type} (f : α → Except String β) : List α → Except String (List β)
  | [] => .ok []
  | a :: as =>
      match f a with
      | .error e => .error e
      | .ok b =>
          match mapE f as with
          | .error e => .error e
          | .ok bs => .ok (b :: bs)

/-- Cell expansion: each layer descriptor is repeated `cells_per_layer`
times (the four parallel `cell_*` arrays, kept as one record list). -/
def expandCells (cells_per_layer : Nat) (specs : List CellSpec) : List CellSpec :=
  specs.flatMap (fun s => List.replicate cells_per_layer s)

/-- Conductivity of one cell during an iteration: temperature-dependent
cells interpolate at the mean of their two boundary temperatures,
constant cells reuse the resolved value. -/
def kForCell (clamp : Bool) (c : CellSpec) (Tl Tr : ℚ) : Except String ℚ :=
  if c.use_kT then
    match c.material with
    | none => .error "AssertionError: material expected"
    | some material => interp_material_k clamp material ((Tl + Tr) / 2)
  else .ok c.k_const

/-- The per-cell resistance loop of one Picard iteration: `dx / k` with the
positivity check, walking the current boundary-temperature profile. -/
def cellResistances (clamp : Bool) : List CellSpec → List ℚ → Except String (List ℚ)
  | [], _ => .ok []
  | c :: cs, T0 :: T1 :: Ts =>
      (match kForCell clamp c T0 T1 with
      | .error e => .error e
      | .ok k =>
          if k ≤ 0 then .error "Interpolated thermal conductivity must be positive."
          else
            match cellResistances clamp cs (T1 :: Ts) with
            | .error e => .error e
            | .ok rest => .ok (c.dx / k :: rest))
  | _ :: _, _ => .error "IndexError: temperature profile too short"

/-- `max(abs(a - b) for a, b in zip(T_new, T_profile))`; the profiles are
always non-empty and the differences non-negative, so folding `max` from
`0` agrees with Python's `max` over the non-empty generator. -/
def maxAbsDiff (xs ys : List ℚ) : ℚ :=
  (List.zipWith (fun a b => |a - b|) xs ys).foldr max 0

/-- Mutable state of the Picard loop: current profile and flux. -/
structure IterState where
  T_profile : List ℚ
  q : ℚ
  deriving Repr, DecidableEq

/-- One Picard iteration: re-evaluate cell resistances from the current
profile, recompute the flux and the profile, and report the maximum
elementwise change. -/
def picardStep (clamp : Bool) (cells : List CellSpec)
    (T_left_C T_inf_C R_conv : ℚ) (s : IterState) :
    Except String (IterState × ℚ) :=
  match cellResistances clamp cells s.T_profile with
  | .error e => .error e
  | .ok R_cells =>
      let q_new := (T_left_C - T_inf_C) / (R_cells.sum + R_conv)
      let T_new := walkTemps T_left_C q_new R_cells
      let diff := maxAbsDiff T_new s.T_profile
      .ok (⟨T_new, q_new⟩, diff)

/-- `n` Picard iterations without the convergence test (used to phrase
properties about the trace of the loop). -/
def runSteps (clamp : Bool) (cells : List CellSpec)
    (T_left_C T_inf_C R_conv : ℚ) : Nat → IterState → Except String IterState
  | 0, s => .ok s
  | n + 1, s =>
      match picardStep clamp cells T_left_C T_inf_C R_conv s with
      | .error e => .error e
      | .ok (s', _) => runSteps clamp cells T_left_C T_inf_C R_conv n s'

/-- The `for iteration in range(max_iter)` loop with its `break` on
`diff < tol` and the `for ... else` convergence failure. -/
def picardLoop (clamp : Bool) (cells : List CellSpec)
    (T_left_C T_inf_C R_conv tol : ℚ) : Nat → IterState → Except String IterState
  | 0, _ => .error "Picard iteration did not converge within max_iter iterations."
  | n + 1, s =>
      match picardStep clamp cells T_left_C T_inf_C R_conv s with
      | .error e => .error e
      | .ok (s', diff) =>
          if diff < tol then .ok s'
          else picardLoop clamp cells T_left_C T_inf_C R_conv tol n s'

/-- The interface projection at the end of `solve_multilayer_kT`:
`T_left` followed by the profile entry at every `cells_per_layer`-th
boundary (one per layer). -/
def projectInterfaces (cells_per_layer n_layers : Nat) (T_left_C : ℚ)
    (profile : List ℚ) : List ℚ :=
  T_left_C :: (List.range n_layers).map
    (fun i => profile.getD ((i + 1) * cells_per_layer) 0)

/-- `solve_multilayer_kT`: validation, per-layer resolution, linear initial
guess, cell expansion, Picard iteration, and interface projection. -/
def solve_multilayer_kT (store : MaterialStore) (layers : List Layer)
    (T_left_C T_inf_C h_W_m2K : ℚ) (cells_per_layer : Nat) (tol : ℚ)
    (max_iter : Nat) (clamp : Bool) : Except String SolveResult :=
  if layers = [] then .error "At least one layer is required for the computation."
  else if h_W_m2K ≤ 0 then .error "Convective heat transfer coefficient must be positive."
  else if tol ≤ 0 then .error "Tolerance must be positive."
  else if max_iter = 0 then .error "max_iter must be positive."
  else if cells_per_layer = 0 then .error "cells_per_layer must be positive."
  else
    let T_mid := (T_left_C + T_inf_C) / 2
    let R_conv := 1 / h_W_m2K
    match mapE (resolveLayer store cells_per_layer T_mid) layers with
    | .error e => .error e
    | .ok layer_descriptors =>
        let constant_k_values := layer_descriptors.map (fun d => d.k_const)
        match solve_constant_k layers constant_k_values T_left_C T_inf_C h_W_m2K with
        | .error e => .error e
        | .ok linear_result =>
            let q := linear_result.q_W_m2
            let cells := expandCells cells_per_layer layer_descriptors
            let T_profile :=
              walkTemps T_left_C q (cells.map (fun c => c.dx / c.k_const))
            let x_m := cumFrom 0 (cells.map (fun c => c.dx))
            match picardLoop clamp cells T_left_C T_inf_C R_conv tol max_iter
                ⟨T_profile, q⟩ with
            | .error e => .error e
            | .ok final =>
                .ok ⟨final.q,
                     projectInterfaces cells_per_layer layer_descriptors.length
                       T_left_C final.T_profile,
                     x_m, final.T_profile⟩

/-- The constant-k resolution of `compute_multilayer_layers` (material
layers take the material's `k_const`, custom layers their own). -/
def resolveConstK (store : MaterialStore) (layer : Layer) : Except String ℚ :=
  match layer.mode with
  | .material =>
      match layer.material_id with
      | none => .error "AssertionError: material_id expected"
      | some mid =>
          match get_material store mid with
          | .error e => .error e
          | .ok material =>
              match material.k_const with
              | none => .error "Material does not define a constant k value."
              | some k => .ok k
  | .custom =>
      match layer.k_const with
      | none => .error "AssertionError: k_const expected"
      | some k => .ok k

/-- `compute_multilayer_layers`: route to the nonlinear solver when any
layer uses k(T), otherwise resolve constants and run the linear solver
(the nonlinear call uses the source's default parameters). -/
def compute_multilayer_layers (store : MaterialStore) (layers : List Layer)
    (T_left_C T_inf_C h_W_m2K : ℚ) : Except String SolveResult :=
  if layers = [] then .error "At least one layer is required for the computation."
  else if h_W_m2K ≤ 0 then .error "Convective heat transfer coefficient must be positive."
  else if layers.any (fun l => l.use_kT) then
    solve_multilayer_kT store layers T_left_C T_inf_C h_W_m2K 25 (1 / 1000) 200 true
  else
    match mapE (resolveConstK store) layers with
    | .error e => .error e
    | .ok ks => solve_constant_k layers ks T_left_C T_inf_C h_W_m2K

/-! ### Helper lemmas about the embedded operations -/

theorem walkTemps_length (T0 q : ℚ) (Rs : List ℚ) :
    (walkTemps T0 q Rs).length = Rs.length + 1 := by
  induction Rs generalizing T0 with
  | nil => rfl
  | cons R Rs ih => simp [walkTemps, ih]

theorem walkTemps_ne_nil (T0 q : ℚ) (Rs : List ℚ) : walkTemps T0 q Rs ≠ [] := by
  cases Rs <;> simp [walkTemps]

theorem walkTemps_getD (T0 q : ℚ) (Rs : List ℚ) :
    ∀ m, m ≤ Rs.length → (walkTemps T0 q Rs).getD m 0 = T0 - q * (Rs.take m).sum := by
  induction Rs generalizing T0 with
  | nil =>
      intro m hm
      simp only [List.length_nil, Nat.le_zero] at hm
      subst hm
      simp [walkTemps]
  | cons R Rs ih =>
      intro m hm
      cases m with
      | zero => simp [walkTemps]
      | succ m =>
          have := ih (T0 - q * R) m (by simpa using hm)
          simp only [walkTemps, List.getD_cons_succ, List.take_succ_cons, List.sum_cons]
          rw [this]; ring

theorem walkTemps_head (T0 q : ℚ) (Rs : List ℚ) :
    (walkTemps T0 q Rs).getD 0 0 = T0 := by
  cases Rs <;> simp [walkTemps]

theorem walkTemps_chain_ge (T0 q : ℚ) (Rs : List ℚ)
    (h : ∀ R ∈ Rs, 0 ≤ q * R) :
    List.Chain' (fun a b => b ≤ a) (walkTemps T0 q Rs) := by
  induction Rs generalizing T0 with
  | nil => simp [walkTemps]
  | cons R Rs ih =>
      have hR : 0 ≤ q * R := h R (by simp)
      have hrest := ih (T0 - q * R) (fun R' hR' => h R' (by simp [hR']))
      simp only [walkTemps]
      refine List.chain'_cons'.2 ⟨?_, hrest⟩
      intro y hy
      cases Rs with
      | nil => simp [walkTemps] at hy; subst hy; linarith
      | cons R' Rs' => simp [walkTemps] at hy; subst hy; linarith

theorem walkTemps_chain_le (T0 q : ℚ) (Rs : List ℚ)
    (h : ∀ R ∈ Rs, q * R ≤ 0) :
    List.Chain' (fun a b => a ≤ b) (walkTemps T0 q Rs) := by
  induction Rs generalizing T0 with
  | nil => simp [walkTemps]
  | cons R Rs ih =>
      have hR : q * R ≤ 0 := h R (by simp)
      have hrest := ih (T0 - q * R) (fun R' hR' => h R' (by simp [hR']))
      simp only [walkTemps]
      refine List.chain'_cons'.2 ⟨?_, hrest⟩
      intro y hy
      cases Rs with
      | nil => simp [walkTemps] at hy; subst hy; linarith
      | cons R' Rs' => simp [walkTemps] at hy; subst hy; linarith

theorem cumFrom_length (a : ℚ) (ts : List ℚ) :
    (cumFrom a ts).length = ts.length + 1 := by
  induction ts generalizing a with
  | nil => rfl
  | cons t ts ih => simp [cumFrom, ih]

theorem cumFrom_head (a : ℚ) (ts : List ℚ) : (cumFrom a ts).getD 0 0 = a := by
  cases ts <;> simp [cumFrom]

theorem cumFrom_getLast? (a : ℚ) (ts : List ℚ) :
    (cumFrom a ts).getLast? = some (a + ts.sum) := by
  induction ts generalizing a with
  | nil => simp [cumFrom]
  | cons t ts ih =>
      simp only [cumFrom, List.sum_cons]
      cases hts : cumFrom (a + t) ts with
      | nil => exact absurd (congrArg List.length hts) (by simp [cumFrom_length])
      | cons x xs =>
          rw [List.getLast?_cons_cons, ← hts, ih]
          ring_nf

theorem mkResistances_ok (ts ks : List ℚ) (hk : ∀ k ∈ ks, 0 < k) :
    mkResistances ts ks = .ok (List.zipWith (fun t k => t / k) ts ks) := by
  induction ts generalizing ks with
  | nil => cases ks <;> rfl
  | cons t ts ih =>
      cases ks with
      | nil => rfl
      | cons k ks =>
          have hkpos : 0 < k := hk k (by simp)
          have := ih ks (fun k' hk' => hk k' (by simp [hk']))
          simp [mkResistances, not_le.2 hkpos, this]

theorem mkResistances_ok_nonneg (ts ks Rs : List ℚ)
    (h : mkResistances ts ks = .ok Rs) (ht : ∀ t ∈ ts, 0 ≤ t) :
    ∀ R ∈ Rs, 0 ≤ R := by
  induction ts generalizing ks Rs with
  | nil => cases ks <;> (simp only [mkResistances] at h; cases h; simp)
  | cons t ts ih =>
      cases ks with
      | nil =>
          simp only [mkResistances] at h
          cases h; simp
      | cons k ks =>
          simp only [mkResistances] at h
          by_cases hk : k ≤ 0
          · simp [hk] at h
          · simp only [if_neg hk] at h
            cases hrec : mkResistances ts ks with
            | error e => rw [hrec] at h; cases h
            | ok rest =>
                rw [hrec] at h
                cases h
                intro R hR
                rcases List.mem_cons.1 hR with rfl | hR'
                · have : 0 < k := lt_of_not_le hk
                  exact div_nonneg (ht t (by simp)) this.le
                · exact ih ks rest hrec (fun t' ht' => ht t' (by simp [ht'])) R hR'

theorem maxAbsDiff_self (xs : List ℚ) : maxAbsDiff xs xs = 0 := by
  induction xs with
  | nil => rfl
  | cons x xs ih => simp [maxAbsDiff, List.zipWith] at ih ⊢; simp [ih]

theorem mapE_ok_iff {α β : Type} (f : α → Except String β) :
    ∀ (l : List α) (bs : List β),
      mapE f l = .ok bs ↔ List.Forall₂ (fun a b => f a = .ok b) l bs := by
  intro l
  induction l with
  | nil =>
      intro bs
      constructor
      · intro h; cases h; exact List.Forall₂.nil
      · intro h; cases h; rfl
  | cons a as ih =>
      intro bs
      constructor
      · intro h
        simp only [mapE] at h
        cases hfa : f a with
        | error e => rw [hfa] at h; cases h
        | ok b =>
            rw [hfa] at h
            cases hrec : mapE f as with
            | error e => rw [hrec] at h; cases h
            | ok bs' =>
                rw [hrec] at h
                cases h
                exact List.Forall₂.cons hfa ((ih bs').1 hrec)
      · intro h
        cases h with
        | cons hfa hrest =>
            simp only [mapE, hfa, (ih _).2 hrest]

theorem expandCells_length (n : Nat) (specs : List CellSpec) :
    (expandCells n specs).length = specs.length * n := by
  induction specs with
  | nil => simp [expandCells]
  | cons s specs ih =>
      simp only [expandCells, List.flatMap_cons] at ih ⊢
      simp [ih, Nat.succ_mul, Nat.add_comm]

theorem mem_expandCells (n : Nat) (specs : List CellSpec) :
    ∀ c ∈ expandCells n specs, c ∈ specs := by
  intro c hc
  simp only [expandCells, List.mem_flatMap] at hc
  obtain ⟨s, hs, hc⟩ := hc
  rw [List.eq_of_mem_replicate hc]
  exact hs

theorem map_expandCells_sum (n : Nat) (f : CellSpec → ℚ) (specs : List CellSpec) :
    ((expandCells n specs).map f).sum = (specs.map (fun s => (n : ℚ) * f s)).sum := by
  induction specs with
  | nil => rfl
  | cons s specs ih =>
      simp only [expandCells, List.flatMap_cons, List.map_append, List.sum_append,
        List.map_cons, List.sum_cons] at ih ⊢
      rw [ih, List.map_replicate, List.sum_replicate, nsmul_eq_mul]

theorem map_expandCells_take_sum (n : Nat) (f : CellSpec → ℚ) :
    ∀ (specs : List CellSpec) (m : Nat), m ≤ specs.length →
      (((expandCells n specs).map f).take (m * n)).sum
        = (((specs.take m).map (fun s => (n : ℚ) * f s))).sum := by
  intro specs
  induction specs with
  | nil =>
      intro m hm
      simp only [List.length_nil, Nat.le_zero] at hm
      subst hm
      simp [expandCells]
  | cons s specs ih =>
      intro m hm
      cases m with
      | zero => simp
      | succ m =>
          have hm' : m ≤ specs.length := by simpa using hm
          simp only [expandCells, List.flatMap_cons, List.map_append,
            List.take_succ_cons, List.map_cons, List.sum_cons]
          rw [Nat.succ_mul, Nat.add_comm, List.take_append_eq_append_take]
          have hlen : (List.replicate n s).map f = List.replicate n (f s) :=
            List.map_replicate ..
          rw [hlen]
          have hlen2 : (List.replicate n (f s)).length = n := by simp
          rw [List.take_of_length_le (by simp), List.sum_append]
          have : n + m * n - (List.replicate n (f s)).length = m * n := by simp
          rw [this, List.sum_replicate, nsmul_eq_mul, ← expandCells, ih m hm']

theorem cellResistances_const (clamp : Bool) :
    ∀ (cells : List CellSpec) (profile : List ℚ),
      (∀ c ∈ cells, c.use_kT = false) → (∀ c ∈ cells, 0 < c.k_const) →
      cells.length + 1 ≤ profile.length →
      cellResistances clamp cells profile
        = .ok (cells.map (fun c => c.dx / c.k_const)) := by
  intro cells
  induction cells with
  | nil => intro profile _ _ _; rfl
  | cons c cs ih =>
      intro profile hkT hk hlen
      match profile with
      | [] => simp at hlen
      | [T0] => simp at hlen
      | T0 :: T1 :: Ts =>
          have hc : c.use_kT = false := hkT c (by simp)
          have hcpos : 0 < c.k_const := hk c (by simp)
          have := ih (T1 :: Ts) (fun c' hc' => hkT c' (by simp [hc']))
            (fun c' hc' => hk c' (by simp [hc']))
            (by simp only [List.length_cons] at hlen ⊢; omega)
          simp [cellResistances, kForCell, hc, not_le.2 hcpos, this]

theorem cellResistances_ok_length (clamp : Bool) :
    ∀ (cells : List CellSpec) (profile : List ℚ) (Rs : List ℚ),
      cellResistances clamp cells profile = .ok Rs → Rs.length = cells.length := by
  intro cells
  induction cells with
  | nil => intro profile Rs h; cases h; rfl
  | cons c cs ih =>
      intro profile Rs h
      match profile with
      | [] => cases h
      | [T0] => cases h
      | T0 :: T1 :: Ts =>
          simp only [cellResistances] at h
          cases hkc : kForCell clamp c T0 T1 with
          | error e => rw [hkc] at h; cases h
          | ok k =>
              rw [hkc] at h
              by_cases hk : k ≤ 0
              · simp [hk] at h
              · simp only [if_neg hk] at h
                cases hrec : cellResistances clamp cs (T1 :: Ts) with
                | error e => rw [hrec] at h; cases h
                | ok rest =>
                    rw [hrec] at h
                    cases h
                    simp [ih (T1 :: Ts) rest hrec]

theorem cellResistances_ok_pos (clamp : Bool) :
    ∀ (cells : List CellSpec) (profile : List ℚ) (Rs : List ℚ),
      cellResistances clamp cells profile = .ok Rs →
      (∀ c ∈ cells, 0 < c.dx) → ∀ R ∈ Rs, 0 < R := by
  intro cells
  induction cells with
  | nil => intro profile Rs h _; cases h; simp
  | cons c cs ih =>
      intro profile Rs h hdx
      match profile with
      | [] => cases h
      | [T0] => cases h
      | T0 :: T1 :: Ts =>
          simp only [cellResistances] at h
          cases hkc : kForCell clamp c T0 T1 with
          | error e => rw [hkc] at h; cases h
          | ok k =>
              rw [hkc] at h
              by_cases hk : k ≤ 0
              · simp [hk] at h
              · simp only [if_neg hk] at h
                cases hrec : cellResistances clamp cs (T1 :: Ts) with
                | error e => rw [hrec] at h; cases h
                | ok rest =>
                    rw [hrec] at h
                    cases h
                    intro R hR
                    rcases List.mem_cons.1 hR with rfl | hR'
                    · exact div_pos (hdx c (by simp)) (lt_of_not_le hk)
                    · exact ih (T1 :: Ts) rest hrec
                        (fun c' hc' => hdx c' (by simp [hc'])) R hR'

theorem picardStep_ok (clamp : Bool) (cells : List CellSpec)
    (Tl Ti Rc : ℚ) (s s' : IterState) (d : ℚ)
    (h : picardStep clamp cells Tl Ti Rc s = .ok (s', d)) :
    ∃ Rs, cellResistances clamp cells s.T_profile = .ok Rs ∧
      s'.q = (Tl - Ti) / (Rs.sum + Rc) ∧
      s'.T_profile = walkTemps Tl s'.q Rs ∧
      d = maxAbsDiff s'.T_profile s.T_profile := by
  simp only [picardStep] at h
  cases hcr : cellResistances clamp cells s.T_profile with
  | error e => rw [hcr] at h; cases h
  | ok Rs =>
      rw [hcr] at h
      cases h
      exact ⟨Rs, rfl, rfl, rfl, rfl⟩

theorem picardLoop_ok (clamp : Bool) (cells : List CellSpec)
    (Tl Ti Rc tol : ℚ) :
    ∀ (m : Nat) (s s' : IterState),
      picardLoop clamp cells Tl Ti Rc tol m s = .ok s' →
      ∃ s₀ d, picardStep clamp cells Tl Ti Rc s₀ = .ok (s', d) ∧ d < tol := by
  intro m
  induction m with
  | zero => intro s s' h; cases h
  | succ m ih =>
      intro s s' h
      cases hst : picardStep clamp cells Tl Ti Rc s with
      | error e => simp only [picardLoop, hst] at h; cases h
      | ok p =>
          obtain ⟨s₁, d⟩ := p
          simp only [picardLoop, hst] at h
          by_cases hd : d < tol
          · rw [if_pos hd] at h
            cases h
            exact ⟨s, d, hst, hd⟩
          · rw [if_neg hd] at h
            exact ih s₁ s' h

theorem picardLoop_diverges (clamp : Bool) (cells : List CellSpec)
    (Tl Ti Rc tol : ℚ) :
    ∀ (m : Nat) (s : IterState),
      (∀ k < m, ∃ sk s' d,
        runSteps clamp cells Tl Ti Rc k s = .ok sk ∧
        picardStep clamp cells Tl Ti Rc sk = .ok (s', d) ∧ tol ≤ d) →
      picardLoop clamp cells Tl Ti Rc tol m s
        = .error "Picard iteration did not converge within max_iter iterations." := by
  intro m
  induction m with
  | zero => intro s _; rfl
  | succ m ih =>
      intro s hdiv
      obtain ⟨s0, s', d, hrun, hstep, hd⟩ := hdiv 0 (Nat.succ_pos m)
      cases hrun
      simp only [picardLoop, hstep, if_neg (not_lt.2 hd)]
      apply ih
      intro k hk
      obtain ⟨sk, s'', d', hrun', hstep', hd'⟩ := hdiv (k + 1) (by omega)
      refine ⟨sk, s'', d', ?_, hstep', hd'⟩
      simpa only [runSteps, hstep] using hrun'

theorem resolveLayer_ok (store : MaterialStore) (n : Nat) (Tmid : ℚ)
    (layer : Layer) (spec : CellSpec)
    (h : resolveLayer store n Tmid layer = .ok spec) :
    spec.use_kT = layer.use_kT ∧ spec.dx = layer.thickness_mm / 1000 / (n : ℚ) ∧
      0 < spec.dx ∧ 0 < spec.k_const := by
  by_cases hdx : layer.thickness_mm / 1000 / (n : ℚ) ≤ 0
  · simp only [resolveLayer, if_pos hdx] at h; cases h
  · have hdxpos : 0 < layer.thickness_mm / 1000 / (n : ℚ) := lt_of_not_le hdx
    cases hmode : layer.mode with
    | material =>
        cases hmid : layer.material_id with
        | none => simp only [resolveLayer, if_neg hdx, hmode, hmid] at h; cases h
        | some mid =>
            cases hget : get_material store mid with
            | error e =>
                simp only [resolveLayer, if_neg hdx, hmode, hmid, hget] at h
                cases h
            | ok material =>
                by_cases hkT : layer.use_kT
                · by_cases hnok : material.k_points = [] ∧ material.k_const = none
                  · simp only [resolveLayer, if_neg hdx, hmode, hmid, hget,
                      if_pos hkT, if_pos hnok] at h
                    cases h
                  · cases hik : interp_k material Tmid "clamp" with
                    | error e =>
                        simp only [resolveLayer, if_neg hdx, hmode, hmid, hget,
                          if_pos hkT, if_neg hnok, hik] at h
                        cases h
                    | ok k =>
                        by_cases hk : k ≤ 0
                        · simp only [resolveLayer, if_neg hdx, hmode, hmid, hget,
                            if_pos hkT, if_neg hnok, hik, if_pos hk] at h
                          cases h
                        · simp only [resolveLayer, if_neg hdx, hmode, hmid, hget,
                            if_pos hkT, if_neg hnok, hik, if_neg hk] at h
                          cases h
                          exact ⟨hkT.symm ▸ rfl, rfl, hdxpos, lt_of_not_le hk⟩
                · cases hkc : material.k_const with
                  | none =>
                      simp only [resolveLayer, if_neg hdx, hmode, hmid, hget,
                        if_neg hkT, hkc] at h
                      cases h
                  | some k =>
                      by_cases hk : k ≤ 0
                      · simp only [resolveLayer, if_neg hdx, hmode, hmid, hget,
                          if_neg hkT, hkc, if_pos hk] at h
                        cases h
                      · simp only [resolveLayer, if_neg hdx, hmode, hmid, hget,
                          if_neg hkT, hkc, if_neg hk] at h
                        cases h
                        exact ⟨by simp [hkT], rfl, hdxpos, lt_of_not_le hk⟩
    | custom =>
        by_cases hkT : layer.use_kT
        · simp only [resolveLayer, if_neg hdx, hmode, if_pos hkT] at h; cases h
        · cases hkc : layer.k_const with
          | none => simp only [resolveLayer, if_neg hdx, hmode, if_neg hkT, hkc] at h; cases h
          | some k =>
              by_cases hk : k ≤ 0
              · simp only [resolveLayer, if_neg hdx, hmode, if_neg hkT, hkc,
                  if_pos hk] at h
                cases h
              · simp only [resolveLayer, if_neg hdx, hmode, if_neg hkT, hkc,
                  if_neg hk] at h
                cases h
                exact ⟨by simp [hkT], rfl, hdxpos, lt_of_not_le hk⟩

deriving instance DecidableEq for Except

theorem walkTemps_getD_succ (T0 q : ℚ) :
    ∀ (Rs : List ℚ) (i : Nat), i < Rs.length →
      (walkTemps T0 q Rs).getD (i + 1) 0
        = (walkTemps T0 q Rs).getD i 0 - q * Rs.getD i 0 := by
  intro Rs
  induction Rs generalizing T0 with
  | nil => intro i hi; simp at hi
  | cons R Rs ih =>
      intro i hi
      cases i with
      | zero =>
          simp only [walkTemps, List.getD_cons_succ, List.getD_cons_zero]
          exact walkTemps_head ..
      | succ i =>
          have := ih (T0 - q * R) i (by simpa using hi)
          simpa [walkTemps] using this

theorem cumFrom_getD_succ (a : ℚ) :
    ∀ (ts : List ℚ) (i : Nat), i < ts.length →
      (cumFrom a ts).getD (i + 1) 0 = (cumFrom a ts).getD i 0 + ts.getD i 0 := by
  intro ts
  induction ts generalizing a with
  | nil => intro i hi; simp at hi
  | cons t ts ih =>
      intro i hi
      cases i with
      | zero =>
          simp only [cumFrom, List.getD_cons_succ, List.getD_cons_zero]
          exact cumFrom_head ..
      | succ i =>
          have := ih (a + t) i (by simpa using hi)
          simpa [cumFrom] using this

theorem sortPoints_of_sorted :
    ∀ ps : List (ℚ × ℚ), List.Pairwise (fun a b => a.1 ≤ b.1) ps →
      sortPoints ps = ps := by
  intro ps
  induction ps with
  | nil => intro _; rfl
  | cons p ps ih =>
      intro hp
      have htail := List.Pairwise.sublist (List.sublist_cons_self p ps) hp
      simp only [sortPoints, ih htail]
      cases ps with
      | nil => rfl
      | cons q qs =>
          have hpq : p.1 ≤ q.1 := (List.pairwise_cons.1 hp).1 q (by simp)
          simp [insertPt, hpq]

theorem interp_k_clamp_of_points (m : Material) (T : ℚ) (hne : m.k_points ≠ []) :
    interp_k m T "clamp" = .ok (interpSorted (sortPoints m.k_points) T) := by
  simp [interp_k, hne]

theorem solve_constant_k_ok (layers : List Layer) (ks : List ℚ)
    (Tl Ti h : ℚ) (r : SolveResult)
    (hok : solve_constant_k layers ks Tl Ti h = .ok r) :
    ∃ Rs, mkResistances (layers.map fun l => l.thickness_mm / 1000) ks = .ok Rs
      ∧ r = ⟨(Tl - Ti) / (Rs.sum + 1 / h),
          walkTemps Tl ((Tl - Ti) / (Rs.sum + 1 / h)) Rs,
          cumFrom 0 (layers.map fun l => l.thickness_mm / 1000),
          walkTemps Tl ((Tl - Ti) / (Rs.sum + 1 / h)) Rs⟩ := by
  cases hmk : mkResistances (layers.map fun l => l.thickness_mm / 1000) ks with
  | error e => simp [solve_constant_k, hmk] at hok
  | ok Rs =>
      simp only [solve_constant_k, hmk] at hok
      cases hok
      exact ⟨Rs, rfl, rfl⟩

theorem solve_multilayer_ok (store : MaterialStore) (layers : List Layer)
    (Tl Ti h : ℚ) (n : Nat) (tol : ℚ) (maxit : Nat) (clamp : Bool)
    (r : SolveResult)
    (hok : solve_multilayer_kT store layers Tl Ti h n tol maxit clamp = .ok r) :
    ∃ specs lin final,
      layers ≠ [] ∧ 0 < h ∧ 0 < tol ∧ maxit ≠ 0 ∧ n ≠ 0
      ∧ mapE (resolveLayer store n ((Tl + Ti) / 2)) layers = .ok specs
      ∧ solve_constant_k layers (specs.map fun d => d.k_const) Tl Ti h = .ok lin
      ∧ picardLoop clamp (expandCells n specs) Tl Ti (1 / h) tol maxit
          ⟨walkTemps Tl lin.q_W_m2
            ((expandCells n specs).map fun c => c.dx / c.k_const),
           lin.q_W_m2⟩ = .ok final
      ∧ r = ⟨final.q,
          projectInterfaces n specs.length Tl final.T_profile,
          cumFrom 0 ((expandCells n specs).map fun c => c.dx),
          final.T_profile⟩ := by
  by_cases hne : layers = []
  · simp [solve_multilayer_kT, if_pos hne] at hok
  · by_cases hh : h ≤ 0
    · simp [solve_multilayer_kT, if_neg hne, if_pos hh] at hok
    · by_cases htol : tol ≤ 0
      · simp [solve_multilayer_kT, if_neg hne, if_neg hh, if_pos htol] at hok
      · by_cases hmi : maxit = 0
        · simp [solve_multilayer_kT, if_neg hne, if_neg hh, if_neg htol,
            if_pos hmi] at hok
        · by_cases hn : n = 0
          · simp [solve_multilayer_kT, if_neg hne, if_neg hh, if_neg htol,
              if_neg hmi, if_pos hn] at hok
          · cases hres : mapE (resolveLayer store n ((Tl + Ti) / 2)) layers with
            | error e =>
                simp [solve_multilayer_kT, if_neg hne, if_neg hh,
                  if_neg htol, if_neg hmi, if_neg hn, hres] at hok
            | ok specs =>
                cases hlin : solve_constant_k layers
                    (specs.map fun d => d.k_const) Tl Ti h with
                | error e =>
                    simp [solve_multilayer_kT, if_neg hne, if_neg hh,
                      if_neg htol, if_neg hmi, if_neg hn, hres, hlin] at hok
                | ok lin =>
                    cases hloop : picardLoop clamp (expandCells n specs) Tl Ti
                        (1 / h) tol maxit
                        ⟨walkTemps Tl lin.q_W_m2
                          ((expandCells n specs).map fun c => c.dx / c.k_const),
                         lin.q_W_m2⟩ with
                    | error e =>
                        simp only [solve_multilayer_kT, if_neg hne, if_neg hh,
                          if_neg htol, if_neg hmi, if_neg hn, hres, hlin,
                          hloop] at hok
                        cases hok
                    | ok final =>
                        simp only [solve_multilayer_kT, if_neg hne, if_neg hh,
                          if_neg htol, if_neg hmi, if_neg hn, hres, hlin,
                          hloop] at hok
                        cases hok
                        exact ⟨specs, lin, final, hne, lt_of_not_le hh,
                          lt_of_not_le htol, hmi, hn, rfl, hlin, hloop, rfl⟩

theorem forall₂_mem_right {α β : Type} {R : α → β → Prop} :
    ∀ {l : List α} {bs : List β}, List.Forall₂ R l bs →
      ∀ b ∈ bs, ∃ a ∈ l, R a b := by
  intro l bs hf
  induction hf with
  | nil => intro b hb; cases hb
  | cons hR _ ih =>
      intro b hb
      rcases List.mem_cons.1 hb with rfl | hb'
      · exact ⟨_, by simp, hR⟩
      · obtain ⟨a, ha, hRa⟩ := ih b hb'
        exact ⟨a, by simp [ha], hRa⟩

theorem forall₂_map_sum {α β : Type} {R : α → β → Prop} (f : β → ℚ) (g : α → ℚ)
    (hfg : ∀ a b, R a b → f b = g a) :
    ∀ {l : List α} {bs : List β}, List.Forall₂ R l bs →
      (bs.map f).sum = (l.map g).sum := by
  intro l bs hf
  induction hf with
  | nil => rfl
  | cons hR _ ih => simp [ih, hfg _ _ hR]

theorem getD_map_range (f : Nat → ℚ) (L j : Nat) (hj : j < L) :
    ((List.range L).map f).getD j 0 = f j := by
  rw [List.getD_eq_getElem?_getD, List.getElem?_eq_getElem (by simpa using hj)]
  simp

theorem projectInterfaces_length (n L : Nat) (Tl : ℚ) (profile : List ℚ) :
    (projectInterfaces n L Tl profile).length = L + 1 := by
  simp [projectInterfaces]

theorem projectInterfaces_getD_zero (n L : Nat) (Tl : ℚ) (profile : List ℚ) :
    (projectInterfaces n L Tl profile).getD 0 0 = Tl := rfl

theorem projectInterfaces_getD_succ (n L : Nat) (Tl : ℚ) (profile : List ℚ)
    (j : Nat) (hj : j < L) :
    (projectInterfaces n L Tl profile).getD (j + 1) 0
      = profile.getD ((j + 1) * n) 0 := by
  simp only [projectInterfaces, List.getD_cons_succ]
  exact getD_map_range _ L j hj

/-! ### The claims -/

/-- Concrete material of spec scenario B: sample points (0 C, 0.03) and
(100 C, 0.05), no constant value. -/
def mScenB : Material := ⟨none, [(0, 3/100), (100, 1/20)]⟩

/-- A material with a single sample point (0 C, 0.03). -/
def mSingle : Material := ⟨none, [(0, 3/100)]⟩

/-- C4: for a material with a non-empty, temperature-sorted sample-point
list (the store keeps points sorted and duplicate-free, so the first and
last keys are the minimum and maximum sampled temperatures), strict-mode
interpolation (`_interp_material_k` with `clamp = False`) fails with the
out-of-range error exactly when the query lies outside
[first sampled T, last sampled T], and otherwise returns the clamp-mode
interpolated conductivity without failing. -/
theorem C4_strict_mode_range (m : Material) (T : ℚ) (p0 : ℚ × ℚ)
    (ps : List (ℚ × ℚ)) (hpts : m.k_points = p0 :: ps)
    (hsort : List.Pairwise (fun a b => a.1 ≤ b.1) m.k_points) :
    (T < p0.1 ∨ ((p0 :: ps).getLast (by simp)).1 < T →
      interp_material_k false m T
        = .error "Temperature is outside the available k(T) data.")
    ∧ (p0.1 ≤ T → T ≤ ((p0 :: ps).getLast (by simp)).1 →
      interp_material_k false m T
        = .ok (interpSorted (p0 :: ps) T)) := by
  have hid : sortPoints m.k_points = p0 :: ps := by
    rw [sortPoints_of_sorted m.k_points hsort, hpts]
  constructor
  · intro hout
    simp only [interp_material_k, Bool.false_eq_true, if_false, hid]
    rw [if_pos hout]
  · intro hlo hhi
    simp only [interp_material_k, Bool.false_eq_true, if_false, hid]
    rw [if_neg (by push_neg; exact ⟨hlo, hhi⟩)]
    rw [interp_k_clamp_of_points m T (by simp [hpts]), hid]

/-- C4 witness: scenario B's material queried at 150 C in strict mode
fails with the range error; queried at 50 C it succeeds. -/
theorem C4_strict_mode_range_witness :
    interp_material_k false mScenB 150
      = .error "Temperature is outside the available k(T) data."
    ∧ interp_material_k false mScenB 50 = .ok (1 / 25) := by
  have h := C4_strict_mode_range mScenB 150 (0, 3/100) [(100, 1/20)] rfl
    (by with_unfolding_all decide)
  have h50 := C4_strict_mode_range mScenB 50 (0, 3/100) [(100, 1/20)] rfl
    (by with_unfolding_all decide)
  refine ⟨h.1 (by with_unfolding_all decide), ?_⟩
  rw [h50.2 (by with_unfolding_all decide) (by with_unfolding_all decide)]
  with_unfolding_all decide

/-- The layer refuting C5: material-backed, `use_kT = true`, yet carrying
its own `k_const` — `Layer.__post_init__` accepts it. -/
def layerC5 : Layer := ⟨1, .material, some 1, true, some (1/2)⟩

/-- C5 counterexample: a material-backed layer with `use_kT = true` and a
constant conductivity of its own is constructed without raising, because
`__post_init__` only rejects `k_const` when `use_kT` is False. -/
theorem C5_counterexample :
    Layer.post_init layerC5 = .ok () ∧ layerC5.mode = .material
      ∧ layerC5.use_kT = true ∧ layerC5.k_const ≠ none := by
  with_unfolding_all decide

/-- C5 as amended: every layer accepted by `__post_init__` satisfies
(custom → no material reference) and (material-backed with
`use_kT = false` → no own constant conductivity). -/
theorem C5_post_init_invariant (l : Layer) (h : l.post_init = .ok ()) :
    (l.mode = .custom → l.material_id = none)
      ∧ (l.mode = .material → l.use_kT = false → l.k_const = none) := by
  by_cases hth : l.thickness_mm ≤ 0
  · simp only [Layer.post_init, if_pos hth] at h
    cases h
  · cases hmode : l.mode with
    | material =>
        refine ⟨fun hc => absurd hc (by with_unfolding_all decide), fun _ hkT => ?_⟩
        simp only [Layer.post_init, if_neg hth, hmode] at h
        by_cases hmid : l.material_id = none
        · rw [if_pos hmid] at h; cases h
        · rw [if_neg hmid] at h
          by_cases hbad : l.use_kT = false ∧ l.k_const ≠ none
          · rw [if_pos hbad] at h; cases h
          · push_neg at hbad
            exact hbad hkT
    | custom =>
        refine ⟨fun _ => ?_, fun hm => absurd hm (by with_unfolding_all decide)⟩
        simp only [Layer.post_init, if_neg hth, hmode] at h
        by_cases hmid : l.material_id ≠ none
        · rw [if_pos hmid] at h; cases h
        · exact not_ne_iff.1 hmid

/-- C5 witness: a valid custom layer, showing the amended invariant at a
concrete accepted layer. -/
theorem C5_post_init_invariant_witness :
    ((⟨1, .custom, none, false, some 1⟩ : Layer).mode = .custom →
      (⟨1, .custom, none, false, some 1⟩ : Layer).material_id = none)
    ∧ ((⟨1, .custom, none, false, some 1⟩ : Layer).mode = .material →
      (⟨1, .custom, none, false, some 1⟩ : Layer).use_kT = false →
      (⟨1, .custom, none, false, some 1⟩ : Layer).k_const = none) :=
  C5_post_init_invariant ⟨1, .custom, none, false, some 1⟩ (by with_unfolding_all decide)

/-- C6 counterexample: a single-point material queried in strict mode away
from its sampled temperature fails with the range error instead of
returning the point's value (clamp mode does return it). -/
theorem C6_counterexample :
    interp_material_k false mSingle 50
      = .error "Temperature is outside the available k(T) data."
    ∧ interp_k mSingle 50 "clamp" = .ok (3/100) := by
  with_unfolding_all decide

/-- C6 as amended: a material whose sample set is exactly one point
returns that point's conductivity for every query temperature in clamp
mode (both via `interp_k` and via `_interp_material_k`); in strict mode it
returns the value only when the query equals the sampled temperature and
fails with the range error otherwise. -/
theorem C6_single_point (m : Material) (T0 k0 T : ℚ)
    (hpts : m.k_points = [(T0, k0)]) :
    interp_k m T "clamp" = .ok k0
    ∧ interp_material_k true m T = .ok k0
    ∧ (T = T0 → interp_material_k false m T = .ok k0)
    ∧ (T ≠ T0 → interp_material_k false m T
        = .error "Temperature is outside the available k(T) data.") := by
  have hs : sortPoints m.k_points = [(T0, k0)] := by rw [hpts]; rfl
  have hclamp : interp_k m T "clamp" = .ok k0 := by
    rw [interp_k_clamp_of_points m T (by simp [hpts]), hs]
    rfl
  refine ⟨hclamp, ?_, ?_, ?_⟩
  · simp [interp_material_k, hclamp]
  · intro hT
    simp only [interp_material_k, Bool.false_eq_true, if_false, hs]
    rw [if_neg (by simp [hT]), hclamp]
  · intro hT
    simp only [interp_material_k, Bool.false_eq_true, if_false, hs]
    rw [if_pos (by rcases lt_or_gt_of_ne hT with h | h <;> simp [h, List.getLast])]

/-- C6 witness: the amended statement at the single-point material,
queried at the sampled temperature and away from it. -/
theorem C6_single_point_witness :
    interp_k mSingle 50 "clamp" = .ok (3/100)
    ∧ interp_material_k false mSingle 0 = .ok (3/100)
    ∧ interp_material_k false mSingle 50
        = .error "Temperature is outside the available k(T) data." :=
  ⟨(C6_single_point mSingle 0 (3/100) 50 rfl).1,
   (C6_single_point mSingle 0 (3/100) 0 rfl).2.2.1 rfl,
   (C6_single_point mSingle 0 (3/100) 50 rfl).2.2.2 (by norm_num)⟩

/-- C8: a layer requesting temperature-dependent conductivity whose
material has no sample points falls back to the material's constant value
and fails exactly when the material defines neither — both at the per-cell
interpolation (`_interp_material_k`, in either boundary mode) and at the
initial per-layer resolution inside `solve_multilayer_kT`. -/
theorem C8_empty_points_fallback (store : MaterialStore) (n : Nat)
    (Tmid T : ℚ) (clamp : Bool) (m : Material) (layer : Layer) (mid : Nat)
    (hpts : m.k_points = []) :
    ((m.k_const = none → ∃ e, interp_material_k clamp m T = .error e)
      ∧ (∀ k, m.k_const = some k → interp_material_k clamp m T = .ok k))
    ∧ (layer.mode = .material → layer.material_id = some mid →
        layer.use_kT = true → store mid = some m →
        0 < layer.thickness_mm / 1000 / (n : ℚ) →
        ((m.k_const = none → ∃ e, resolveLayer store n Tmid layer = .error e)
          ∧ (∀ k, m.k_const = some k → 0 < k →
              resolveLayer store n Tmid layer
                = .ok ⟨layer.thickness_mm / 1000 / (n : ℚ), true, some m, k⟩))) := by
  have hsort : sortPoints m.k_points = [] := by rw [hpts]; rfl
  have hcell :
      (m.k_const = none → ∃ e, interp_material_k clamp m T = .error e)
      ∧ (∀ k, m.k_const = some k → interp_material_k clamp m T = .ok k) := by
    cases clamp with
    | true =>
        constructor
        · intro hnone
          exact ⟨"Material has neither k_points nor k_const defined.",
            by simp [interp_material_k, interp_k, hpts, hnone]⟩
        · intro k hk
          simp [interp_material_k, interp_k, hpts, hk]
    | false =>
        constructor
        · intro hnone
          exact ⟨"Material does not provide k(T) data for interpolation.",
            by simp [interp_material_k, hsort, hnone]⟩
        · intro k hk
          simp [interp_material_k, hsort, hk]
  refine ⟨hcell, ?_⟩
  intro hmode hmid hkT hstore hdx
  have hget : get_material store mid = .ok m := by simp [get_material, hstore]
  constructor
  · intro hnone
    refine ⟨"Material does not provide k(T) data.", ?_⟩
    simp only [resolveLayer, if_neg (not_le.2 hdx), hmode, hmid, hget, hkT,
      if_pos (And.intro hpts hnone), if_true]
  · intro k hk hkpos
    have hik : interp_k m Tmid "clamp" = .ok k := by
      simp [interp_k, hpts, hk]
    simp only [resolveLayer, if_neg (not_le.2 hdx), hmode, hmid, hget, hkT,
      if_true, if_neg (by simp [hk] : ¬(m.k_points = [] ∧ m.k_const = none)),
      hik, if_neg (not_le.2 hkpos)]

/-- C8 witness: a concrete empty-point material with a constant value
resolves to that constant both per cell and at layer resolution. -/
theorem C8_empty_points_fallback_witness :
    interp_material_k true ⟨some (1/25), []⟩ 33 = .ok (1/25)
    ∧ resolveLayer (fun i => if i = 1 then some ⟨some (1/25), []⟩ else none)
        2 50 ⟨100, .material, some 1, true, none⟩
        = .ok ⟨(100 : ℚ) / 1000 / (2 : ℚ), true, some ⟨some (1/25), []⟩, 1/25⟩ := by
  have h := C8_empty_points_fallback
    (fun i => if i = 1 then some ⟨some (1/25), []⟩ else none) 2 50 33 true
    ⟨some (1/25), []⟩ ⟨100, .material, some 1, true, none⟩ 1 rfl
  exact ⟨h.1.2 (1/25) rfl,
    (h.2 rfl rfl rfl (by simp) (by norm_num)).2 (1/25) rfl (by norm_num)⟩

/-- C3: for a non-empty stack with positive thicknesses and
conductivities and h > 0, `_solve_constant_k` returns the flux
q = (T_left - T_inf) / (sum of thickness_i(m)/k_i + 1/h), interface
temperatures starting at T_left with T_i = T_(i-1) - q * R_i, and
cumulative positions that run from 0 by the metre thicknesses
(the single-layer formula of the claim is this statement at n = 1,
exhibited by the witness). -/
theorem C3_linear_solver (layers : List Layer) (ks : List ℚ) (Tl Ti h : ℚ)
    (hne : layers ≠ []) (hlen : layers.length = ks.length)
    (hth : ∀ l ∈ layers, 0 < l.thickness_mm) (hk : ∀ k ∈ ks, 0 < k)
    (hh : 0 < h) :
    ∃ r, solve_constant_k layers ks Tl Ti h = .ok r
      ∧ r.q_W_m2 = (Tl - Ti) /
          ((List.zipWith (fun t k => t / k)
            (layers.map fun l => l.thickness_mm / 1000) ks).sum + 1 / h)
      ∧ r.interface_T_C.getD 0 0 = Tl
      ∧ (∀ i < layers.length,
          r.interface_T_C.getD (i + 1) 0 = r.interface_T_C.getD i 0
            - r.q_W_m2 * (List.zipWith (fun t k => t / k)
                (layers.map fun l => l.thickness_mm / 1000) ks).getD i 0)
      ∧ r.x_m.getD 0 0 = 0
      ∧ (∀ i < layers.length,
          r.x_m.getD (i + 1) 0 = r.x_m.getD i 0
            + (layers.map fun l => l.thickness_mm / 1000).getD i 0) := by
  have hRs := mkResistances_ok (layers.map fun l => l.thickness_mm / 1000) ks hk
  have hRslen : (List.zipWith (fun t k => t / k)
      (layers.map fun l => l.thickness_mm / 1000) ks).length = layers.length := by
    simp [List.length_zipWith, hlen]
  have hsolve : solve_constant_k layers ks Tl Ti h
      = .ok ⟨(Tl - Ti) / ((List.zipWith (fun t k => t / k)
            (layers.map fun l => l.thickness_mm / 1000) ks).sum + 1 / h),
          walkTemps Tl ((Tl - Ti) / ((List.zipWith (fun t k => t / k)
            (layers.map fun l => l.thickness_mm / 1000) ks).sum + 1 / h))
            (List.zipWith (fun t k => t / k)
              (layers.map fun l => l.thickness_mm / 1000) ks),
          cumFrom 0 (layers.map fun l => l.thickness_mm / 1000),
          walkTemps Tl ((Tl - Ti) / ((List.zipWith (fun t k => t / k)
            (layers.map fun l => l.thickness_mm / 1000) ks).sum + 1 / h))
            (List.zipWith (fun t k => t / k)
              (layers.map fun l => l.thickness_mm / 1000) ks)⟩ := by
    simp only [solve_constant_k, hRs]
  refine ⟨_, hsolve, rfl, walkTemps_head .., ?_, cumFrom_head .., ?_⟩
  · intro i hi
    exact walkTemps_getD_succ _ _ _ i (by rw [hRslen]; exact hi)
  · intro i hi
    exact cumFrom_getD_succ _ _ i (by simpa using hi)

/-- C3 witness: the single-layer instance (L = 50 mm, k = 0.04 W/mK,
T_left = 20, T_inf = -10, h = 25). -/
theorem C3_linear_solver_witness :
    ∃ r, solve_constant_k [⟨50, .custom, none, false, some (1/25)⟩] [1/25]
        20 (-10) 25 = .ok r
      ∧ r.q_W_m2 = (20 - (-10)) /
          ((List.zipWith (fun t k => t / k)
            ([⟨50, .custom, none, false, some (1/25)⟩].map
              (fun l : Layer => l.thickness_mm / 1000)) [1/25]).sum + 1 / 25)
      ∧ r.interface_T_C.getD 0 0 = 20
      ∧ (∀ i < ([⟨50, .custom, none, false, some (1/25)⟩] : List Layer).length,
          r.interface_T_C.getD (i + 1) 0 = r.interface_T_C.getD i 0
            - r.q_W_m2 * (List.zipWith (fun t k => t / k)
                ([⟨50, .custom, none, false, some (1/25)⟩].map
                  (fun l : Layer => l.thickness_mm / 1000)) [1/25]).getD i 0)
      ∧ r.x_m.getD 0 0 = 0
      ∧ (∀ i < ([⟨50, .custom, none, false, some (1/25)⟩] : List Layer).length,
          r.x_m.getD (i + 1) 0 = r.x_m.getD i 0
            + (([⟨50, .custom, none, false, some (1/25)⟩] : List Layer).map
                (fun l : Layer => l.thickness_mm / 1000)).getD i 0) :=
  C3_linear_solver [⟨50, .custom, none, false, some (1/25)⟩] [1/25] 20 (-10) 25
    (by with_unfolding_all decide) rfl (by with_unfolding_all decide)
    (by with_unfolding_all decide) (by with_unfolding_all decide)

/-- C1: if along the whole run every Picard iteration succeeds but moves
the boundary-temperature profile by at least `tol` (so the `diff < tol`
test never fires within `max_iter` iterations), `solve_multilayer_kT`
fails with the convergence error and returns no result. -/
theorem C1_nonconvergence_raises (store : MaterialStore) (layers : List Layer)
    (Tl Ti h : ℚ) (n : Nat) (tol : ℚ) (maxit : Nat) (clamp : Bool)
    (specs : List CellSpec) (lin : SolveResult) (cells : List CellSpec)
    (s₀ : IterState)
    (hne : layers ≠ []) (hh : 0 < h) (htol : 0 < tol) (hmi : maxit ≠ 0)
    (hn : n ≠ 0)
    (hres : mapE (resolveLayer store n ((Tl + Ti) / 2)) layers = .ok specs)
    (hlin : solve_constant_k layers (specs.map fun d => d.k_const) Tl Ti h
      = .ok lin)
    (hcells : cells = expandCells n specs)
    (hs₀ : s₀ = ⟨walkTemps Tl lin.q_W_m2 (cells.map fun c => c.dx / c.k_const),
      lin.q_W_m2⟩)
    (hdiv : ∀ k < maxit, ∃ sk s' d,
      runSteps clamp cells Tl Ti (1 / h) k s₀ = .ok sk ∧
      picardStep clamp cells Tl Ti (1 / h) sk = .ok (s', d) ∧ tol ≤ d) :
    solve_multilayer_kT store layers Tl Ti h n tol maxit clamp
      = .error "Picard iteration did not converge within max_iter iterations." := by
  subst hcells
  subst hs₀
  have hloop := picardLoop_diverges clamp (expandCells n specs) Tl Ti (1 / h)
    tol maxit _ hdiv
  simp only [solve_multilayer_kT, if_neg hne, if_neg (not_le.2 hh),
    if_neg (not_le.2 htol), if_neg hmi, if_neg hn, hres, hlin, hloop]

/-- The material of spec scenario C: conductivity dropping sharply from 10
to 0.1 W/mK between 0 C and 100 C. -/
def mSharp : Material := ⟨none, [(0, 10), (100, 1/10)]⟩

/-- Store holding only `mSharp` under id 1. -/
def storeSharp : MaterialStore := fun i => if i = 1 then some mSharp else none

/-- A 1 m thick layer of `mSharp` with temperature-dependent conductivity. -/
def layerSharp : Layer := ⟨1000, .material, some 1, true, none⟩

/-- C1 witness: scenario C — `max_iter = 1` with the sharp conductivity
curve; the first Picard update moves the profile by at least `tol`, so the
solve raises the convergence error instead of returning. -/
theorem C1_nonconvergence_raises_witness :
    solve_multilayer_kT storeSharp [layerSharp] 100 0 1 1 (1/1000) 1 true
      = .error "Picard iteration did not converge within max_iter iterations." := by
  refine C1_nonconvergence_raises storeSharp [layerSharp] 100 0 1 1 (1/1000) 1
    true [⟨1, true, some mSharp, 101/20⟩]
    ⟨10100/121, [100, 10100/121], [0, 1], [100, 10100/121]⟩
    (expandCells 1 [⟨1, true, some mSharp, 101/20⟩])
    ⟨walkTemps 100 (10100/121)
      ((expandCells 1 [⟨1, true, some mSharp, 101/20⟩]).map
        fun c => c.dx / c.k_const), 10100/121⟩
    (by simp) (by norm_num) (by norm_num) (by decide) (by decide)
    ?_ ?_ rfl rfl ?_
  · norm_num [mapE, resolveLayer, storeSharp, layerSharp, mSharp, get_material,
      interp_k, sortPoints, insertPt, interpSorted, scanBrackets,
      List.cons_ne_nil]
  · norm_num [solve_constant_k, mkResistances, walkTemps, cumFrom, layerSharp]
  · intro k hk
    have hk0 : k = 0 := by omega
    subst hk0
    refine ⟨⟨walkTemps 100 (10100/121)
        ((expandCells 1 [⟨1, true, some mSharp, 101/20⟩]).map
          fun c => c.dx / c.k_const), 10100/121⟩,
      ⟨[100, 10100/211], 10100/211⟩, 909000/25531, rfl, ?_, ?_⟩
    · norm_num [picardStep, cellResistances, kForCell, interp_material_k,
        interp_k, sortPoints, insertPt, interpSorted, scanBrackets, mSharp,
        expandCells, List.replicate, walkTemps, maxAbsDiff, List.cons_ne_nil]
    · norm_num

theorem mkResistances_ok_length :
    ∀ (ts ks Rs : List ℚ), mkResistances ts ks = .ok Rs →
      Rs.length = min ts.length ks.length := by
  intro ts
  induction ts with
  | nil => intro ks Rs h; cases ks <;> (cases h; simp)
  | cons t ts ih =>
      intro ks Rs h
      cases ks with
      | nil => cases h; simp
      | cons k ks =>
          simp only [mkResistances] at h
          by_cases hk : k ≤ 0
          · simp [hk] at h
          · simp only [if_neg hk] at h
            cases hrec : mkResistances ts ks with
            | error e => rw [hrec] at h; cases h
            | ok rest =>
                rw [hrec] at h
                cases h
                simp only [List.length_cons, ih ks rest hrec]
                omega

/-- C9: for every successful solve — by the linear constant-k solver (with
non-negative thicknesses, positive h) or by the nonlinear solver — the
returned temperature profile is non-increasing along position when
T_left > T_inf and non-decreasing when T_left < T_inf. -/
theorem C9_monotone_profile :
    (∀ (layers : List Layer) (ks : List ℚ) (Tl Ti h : ℚ) (r : SolveResult),
      0 < h → (∀ l ∈ layers, 0 ≤ l.thickness_mm) →
      solve_constant_k layers ks Tl Ti h = .ok r →
      (Ti < Tl → List.Chain' (fun a b => b ≤ a) r.T_profile_C)
      ∧ (Tl < Ti → List.Chain' (fun a b => a ≤ b) r.T_profile_C))
    ∧ (∀ (store : MaterialStore) (layers : List Layer) (Tl Ti h : ℚ)
        (n : Nat) (tol : ℚ) (maxit : Nat) (clamp : Bool) (r : SolveResult),
      solve_multilayer_kT store layers Tl Ti h n tol maxit clamp = .ok r →
      (Ti < Tl → List.Chain' (fun a b => b ≤ a) r.T_profile_C)
      ∧ (Tl < Ti → List.Chain' (fun a b => a ≤ b) r.T_profile_C)) := by
  constructor
  · intro layers ks Tl Ti h r hh hth hok
    obtain ⟨Rs, hmk, hr⟩ := solve_constant_k_ok layers ks Tl Ti h r hok
    have hRnn : ∀ R ∈ Rs, 0 ≤ R := by
      refine mkResistances_ok_nonneg _ _ _ hmk ?_
      intro t ht
      obtain ⟨l, hl, rfl⟩ := List.mem_map.1 ht
      have := hth l hl
      positivity
    have htot : 0 < Rs.sum + 1 / h := by
      have h1 : 0 ≤ Rs.sum := List.sum_nonneg hRnn
      have h2 : 0 < 1 / h := by positivity
      linarith
    subst hr
    constructor
    · intro hT
      have hq : 0 < (Tl - Ti) / (Rs.sum + 1 / h) := div_pos (by linarith) htot
      exact walkTemps_chain_ge _ _ _
        (fun R hR => mul_nonneg hq.le (hRnn R hR))
    · intro hT
      have hq : (Tl - Ti) / (Rs.sum + 1 / h) < 0 :=
        div_neg_of_neg_of_pos (by linarith) htot
      exact walkTemps_chain_le _ _ _
        (fun R hR => mul_nonpos_of_nonpos_of_nonneg hq.le (hRnn R hR))
  · intro store layers Tl Ti h n tol maxit clamp r hok
    obtain ⟨specs, lin, final, hne, hh, htol, hmi, hn, hres, hlin, hloop, hr⟩ :=
      solve_multilayer_ok store layers Tl Ti h n tol maxit clamp r hok
    obtain ⟨s₀, d, hstep, hd⟩ := picardLoop_ok _ _ _ _ _ _ _ _ _ hloop
    obtain ⟨Rs, hcr, hq, hprof, hdiff⟩ := picardStep_ok _ _ _ _ _ _ _ _ hstep
    have hdx : ∀ c ∈ expandCells n specs, 0 < c.dx := by
      intro c hc
      obtain ⟨l, hl, hres1⟩ := forall₂_mem_right ((mapE_ok_iff _ _ _).1 hres) c
        (mem_expandCells n specs c hc)
      exact (resolveLayer_ok _ _ _ _ _ hres1).2.2.1
    have hRpos : ∀ R ∈ Rs, 0 < R := cellResistances_ok_pos _ _ _ _ hcr hdx
    have htot : 0 < Rs.sum + 1 / h := by
      have h1 : 0 ≤ Rs.sum := List.sum_nonneg (fun R hR => (hRpos R hR).le)
      have h2 : 0 < 1 / h := by positivity
      linarith
    subst hr
    constructor
    · intro hT
      have hqpos : 0 < final.q := by
        rw [hq]; exact div_pos (by linarith) htot
      simp only
      rw [hprof]
      exact walkTemps_chain_ge _ _ _
        (fun R hR => mul_nonneg hqpos.le (hRpos R hR).le)
    · intro hT
      have hqneg : final.q < 0 := by
        rw [hq]; exact div_neg_of_neg_of_pos (by linarith) htot
      simp only
      rw [hprof]
      exact walkTemps_chain_le _ _ _
        (fun R hR => mul_nonpos_of_nonpos_of_nonneg hqneg.le (hRpos R hR).le)

/-- C9 witness: a concrete successful linear solve (one 50 mm layer of
k = 0.04, T_left = 20 > T_inf = -10) and a concrete successful nonlinear
solve (one 1 m custom layer of k = 1, T_left = 1 > T_inf = 0) both yield
non-increasing profiles. -/
theorem C9_monotone_profile_witness :
    List.Chain' (fun a b => b ≤ a)
      ((⟨1000/43, [20, -390/43], [0, 1/20], [20, -390/43]⟩ : SolveResult).T_profile_C)
    ∧ List.Chain' (fun a b => b ≤ a)
      ((⟨1/2, [1, 1/2], [0, 1], [1, 1/2]⟩ : SolveResult).T_profile_C) := by
  constructor
  · refine (C9_monotone_profile.1 [⟨50, .custom, none, false, some (1/25)⟩]
      [1/25] 20 (-10) 25 ⟨1000/43, [20, -390/43], [0, 1/20], [20, -390/43]⟩
      (by norm_num) ?_ ?_).1 (by norm_num)
    · intro l hl
      rcases List.mem_singleton.1 hl with rfl
      norm_num
    · norm_num [solve_constant_k, mkResistances, walkTemps, cumFrom]
  · refine (C9_monotone_profile.2 (fun _ => none)
      [⟨1000, .custom, none, false, some 1⟩] 1 0 1 1 (1/1000) 2 true
      ⟨1/2, [1, 1/2], [0, 1], [1, 1/2]⟩ ?_).1 (by norm_num)
    norm_num [solve_multilayer_kT, mapE, resolveLayer, solve_constant_k,
      mkResistances, walkTemps, cumFrom, expandCells, List.replicate,
      picardLoop, picardStep, cellResistances, kForCell, maxAbsDiff,
      projectInterfaces, List.range_succ]

/-- C10: shape invariants of both solvers' results.  Linear path (with one
conductivity per layer): interface_T_C has n+1 entries starting at T_left;
x_m has one more entry than there are temperature-drop segments, starts at
0 and ends at the total metre thickness.  Nonlinear path: T_profile_C has
n*cells_per_layer + 1 entries, interface_T_C has n+1 entries and is the
subsequence of T_profile_C at every cells_per_layer-th index, and x_m
mirrors T_profile_C in length, starting at 0 and ending at the total metre
thickness. -/
theorem C10_result_shapes :
    (∀ (layers : List Layer) (ks : List ℚ) (Tl Ti h : ℚ) (r : SolveResult),
      layers.length = ks.length →
      solve_constant_k layers ks Tl Ti h = .ok r →
      r.interface_T_C.length = layers.length + 1
      ∧ r.interface_T_C.getD 0 0 = Tl
      ∧ r.x_m.length = r.T_profile_C.length
      ∧ r.x_m.getD 0 0 = 0
      ∧ r.x_m.getLast? = some ((layers.map fun l => l.thickness_mm / 1000).sum))
    ∧ (∀ (store : MaterialStore) (layers : List Layer) (Tl Ti h : ℚ)
        (n : Nat) (tol : ℚ) (maxit : Nat) (clamp : Bool) (r : SolveResult),
      solve_multilayer_kT store layers Tl Ti h n tol maxit clamp = .ok r →
      r.T_profile_C.length = layers.length * n + 1
      ∧ r.interface_T_C.length = layers.length + 1
      ∧ (∀ i ≤ layers.length,
          r.interface_T_C.getD i 0 = r.T_profile_C.getD (i * n) 0)
      ∧ r.interface_T_C.getD 0 0 = Tl
      ∧ r.x_m.length = r.T_profile_C.length
      ∧ r.x_m.getD 0 0 = 0
      ∧ r.x_m.getLast? = some ((layers.map fun l => l.thickness_mm / 1000).sum)) := by
  constructor
  · intro layers ks Tl Ti h r hlen hok
    obtain ⟨Rs, hmk, hr⟩ := solve_constant_k_ok layers ks Tl Ti h r hok
    have hRlen : Rs.length = layers.length := by
      rw [mkResistances_ok_length _ _ _ hmk]
      simp [hlen]
    subst hr
    refine ⟨?_, walkTemps_head .., ?_, cumFrom_head .., ?_⟩
    · simp [walkTemps_length, hRlen]
    · simp [walkTemps_length, cumFrom_length, hRlen]
    · rw [cumFrom_getLast?]
      simp
  · intro store layers Tl Ti h n tol maxit clamp r hok
    obtain ⟨specs, lin, final, hne, hh, htol, hmi, hn, hres, hlin, hloop, hr⟩ :=
      solve_multilayer_ok store layers Tl Ti h n tol maxit clamp r hok
    have hf2 := (mapE_ok_iff _ _ _).1 hres
    have hlenspecs : specs.length = layers.length :=
      (List.Forall₂.length_eq hf2).symm
    obtain ⟨s₀, d, hstep, hd⟩ := picardLoop_ok _ _ _ _ _ _ _ _ _ hloop
    obtain ⟨Rs, hcr, hq, hprof, hdiff⟩ := picardStep_ok _ _ _ _ _ _ _ _ hstep
    have hRlen : Rs.length = specs.length * n := by
      rw [cellResistances_ok_length _ _ _ _ hcr, expandCells_length]
    have hproflen : final.T_profile.length = layers.length * n + 1 := by
      rw [hprof, walkTemps_length, hRlen, hlenspecs]
    have hsumdx : ((expandCells n specs).map (fun c => c.dx)).sum
        = (layers.map fun l => l.thickness_mm / 1000).sum := by
      rw [map_expandCells_sum]
      refine forall₂_map_sum _ _ ?_ hf2
      intro l spec hres1
      obtain ⟨_, hdx, hdxpos, _⟩ := resolveLayer_ok _ _ _ _ _ hres1
      rw [hdx]
      have hn' : (n : ℚ) ≠ 0 := Nat.cast_ne_zero.2 hn
      field_simp
      ring
    subst hr
    refine ⟨hproflen, ?_, ?_, projectInterfaces_getD_zero .., ?_, cumFrom_head .., ?_⟩
    · simp [projectInterfaces_length, hlenspecs]
    · intro i hi
      cases i with
      | zero =>
          simp only [Nat.zero_mul]
          rw [projectInterfaces_getD_zero, hprof, walkTemps_head]
      | succ j =>
          exact projectInterfaces_getD_succ n specs.length Tl final.T_profile j
            (by omega)
    · simp [cumFrom_length, expandCells_length, hlenspecs, hproflen]
    · rw [cumFrom_getLast?, hsumdx]
      simp

/-- C10 witness: the shapes at a concrete linear solve (one 50 mm layer)
and a concrete nonlinear solve (one 1 m custom layer, one cell per
layer). -/
theorem C10_result_shapes_witness :
    ((⟨1000/43, [20, -390/43], [0, 1/20], [20, -390/43]⟩ : SolveResult).interface_T_C.length
        = ([⟨50, .custom, none, false, some (1/25)⟩] : List Layer).length + 1
      ∧ (⟨1000/43, [20, -390/43], [0, 1/20], [20, -390/43]⟩ : SolveResult).interface_T_C.getD 0 0 = 20
      ∧ (⟨1000/43, [20, -390/43], [0, 1/20], [20, -390/43]⟩ : SolveResult).x_m.length
          = (⟨1000/43, [20, -390/43], [0, 1/20], [20, -390/43]⟩ : SolveResult).T_profile_C.length
      ∧ (⟨1000/43, [20, -390/43], [0, 1/20], [20, -390/43]⟩ : SolveResult).x_m.getD 0 0 = 0
      ∧ (⟨1000/43, [20, -390/43], [0, 1/20], [20, -390/43]⟩ : SolveResult).x_m.getLast?
          = some ((([⟨50, .custom, none, false, some (1/25)⟩] : List Layer).map
              fun l => l.thickness_mm / 1000).sum))
    ∧ ((⟨1/2, [1, 1/2], [0, 1], [1, 1/2]⟩ : SolveResult).T_profile_C.length
        = ([⟨1000, .custom, none, false, some 1⟩] : List Layer).length * 1 + 1
      ∧ (⟨1/2, [1, 1/2], [0, 1], [1, 1/2]⟩ : SolveResult).interface_T_C.length
          = ([⟨1000, .custom, none, false, some 1⟩] : List Layer).length + 1
      ∧ (∀ i ≤ ([⟨1000, .custom, none, false, some 1⟩] : List Layer).length,
          (⟨1/2, [1, 1/2], [0, 1], [1, 1/2]⟩ : SolveResult).interface_T_C.getD i 0
            = (⟨1/2, [1, 1/2], [0, 1], [1, 1/2]⟩ : SolveResult).T_profile_C.getD (i * 1) 0)
      ∧ (⟨1/2, [1, 1/2], [0, 1], [1, 1/2]⟩ : SolveResult).interface_T_C.getD 0 0 = 1
      ∧ (⟨1/2, [1, 1/2], [0, 1], [1, 1/2]⟩ : SolveResult).x_m.length
          = (⟨1/2, [1, 1/2], [0, 1], [1, 1/2]⟩ : SolveResult).T_profile_C.length
      ∧ (⟨1/2, [1, 1/2], [0, 1], [1, 1/2]⟩ : SolveResult).x_m.getD 0 0 = 0
      ∧ (⟨1/2, [1, 1/2], [0, 1], [1, 1/2]⟩ : SolveResult).x_m.getLast?
          = some ((([⟨1000, .custom, none, false, some 1⟩] : List Layer).map
              fun l => l.thickness_mm / 1000).sum)) :=
  ⟨C10_result_shapes.1 [⟨50, .custom, none, false, some (1/25)⟩] [1/25]
      20 (-10) 25 ⟨1000/43, [20, -390/43], [0, 1/20], [20, -390/43]⟩ rfl
      (by norm_num [solve_constant_k, mkResistances, walkTemps, cumFrom]),
   C10_result_shapes.2 (fun _ => none) [⟨1000, .custom, none, false, some 1⟩]
      1 0 1 1 (1/1000) 2 true ⟨1/2, [1, 1/2], [0, 1], [1, 1/2]⟩
      (by norm_num [solve_multilayer_kT, mapE, resolveLayer, solve_constant_k,
        mkResistances, walkTemps, cumFrom, expandCells, List.replicate,
        picardLoop, picardStep, cellResistances, kForCell, maxAbsDiff,
        projectInterfaces, List.range_succ])⟩

theorem ext_getD (l₁ l₂ : List ℚ) (hl : l₁.length = l₂.length)
    (h : ∀ i < l₁.length, l₁.getD i 0 = l₂.getD i 0) : l₁ = l₂ := by
  refine List.ext_getElem hl ?_
  intro i h1 h2
  have hi := h i h1
  rwa [List.getD_eq_getElem?_getD, List.getD_eq_getElem?_getD,
    List.getElem?_eq_getElem h1, List.getElem?_eq_getElem h2,
    Option.getD_some, Option.getD_some] at hi

theorem resolveLayer_of_const (store : MaterialStore) (n : Nat) (Tmid : ℚ)
    (l : Layer) (k : ℚ) (hkT : l.use_kT = false)
    (hc : resolveConstK store l = .ok k) (hkpos : 0 < k)
    (hth : 0 < l.thickness_mm) (hn : n ≠ 0) :
    ∃ matOpt, resolveLayer store n Tmid l
      = .ok ⟨l.thickness_mm / 1000 / (n : ℚ), false, matOpt, k⟩ := by
  have hnpos : (0 : ℚ) < (n : ℚ) := by
    exact_mod_cast Nat.pos_of_ne_zero hn
  have hdx : ¬(l.thickness_mm / 1000 / (n : ℚ) ≤ 0) := by
    push_neg
    positivity
  cases hmode : l.mode with
  | material =>
      cases hmid : l.material_id with
      | none => simp [resolveConstK, hmode, hmid] at hc
      | some mid =>
          cases hget : get_material store mid with
          | error e => simp [resolveConstK, hmode, hmid, hget] at hc
          | ok material =>
              cases hkc : material.k_const with
              | none => simp [resolveConstK, hmode, hmid, hget, hkc] at hc
              | some k0 =>
                  have hk0 : k0 = k := by
                    simpa [resolveConstK, hmode, hmid, hget, hkc] using hc
                  subst hk0
                  refine ⟨some material, ?_⟩
                  simp only [resolveLayer, if_neg hdx, hmode, hmid, hget, hkT,
                    Bool.false_eq_true, if_false, hkc, if_neg (not_le.2 hkpos)]
  | custom =>
      cases hkc : l.k_const with
      | none => simp [resolveConstK, hmode, hkc] at hc
      | some k0 =>
          have hk0 : k0 = k := by
            simpa [resolveConstK, hmode, hkc] using hc
          subst hk0
          refine ⟨none, ?_⟩
          simp only [resolveLayer, if_neg hdx, hmode, hkT, Bool.false_eq_true,
            if_false, hkc, if_neg (not_le.2 hkpos)]

theorem mapE_resolveLayer_const (store : MaterialStore) (n : Nat) (Tmid : ℚ)
    (hn : n ≠ 0) :
    ∀ (layers : List Layer) (ks : List ℚ),
      mapE (resolveConstK store) layers = .ok ks →
      (∀ l ∈ layers, l.use_kT = false) → (∀ l ∈ layers, 0 < l.thickness_mm) →
      (∀ k ∈ ks, 0 < k) →
      ∃ specs, mapE (resolveLayer store n Tmid) layers = .ok specs
        ∧ specs.map (fun c => c.k_const) = ks
        ∧ (∀ c ∈ specs, c.use_kT = false ∧ 0 < c.k_const ∧ 0 < c.dx)
        ∧ List.zipWith (fun t k => t / k)
            (layers.map fun l => l.thickness_mm / 1000) ks
          = specs.map (fun c => (n : ℚ) * (c.dx / c.k_const)) := by
  intro layers
  induction layers with
  | nil =>
      intro ks hks _ _ _
      cases hks
      exact ⟨[], rfl, rfl, by simp, rfl⟩
  | cons l ls ih =>
      intro ks hks hkT hth hkpos
      simp only [mapE] at hks
      cases hc : resolveConstK store l with
      | error e => rw [hc] at hks; cases hks
      | ok k =>
          rw [hc] at hks
          cases hrec : mapE (resolveConstK store) ls with
          | error e => rw [hrec] at hks; cases hks
          | ok ks' =>
              rw [hrec] at hks
              cases hks
              obtain ⟨specs', hres', hmap', hprops', hzip'⟩ := ih ks' hrec
                (fun l' hl' => hkT l' (by simp [hl']))
                (fun l' hl' => hth l' (by simp [hl']))
                (fun k' hk' => hkpos k' (by simp [hk']))
              have hkp : 0 < k := hkpos k (by simp)
              obtain ⟨matOpt, hresl⟩ := resolveLayer_of_const store n Tmid l k
                (hkT l (by simp)) hc hkp (hth l (by simp)) hn
              refine ⟨⟨l.thickness_mm / 1000 / (n : ℚ), false, matOpt, k⟩ :: specs',
                ?_, ?_, ?_, ?_⟩
              · simp only [mapE, hresl, hres']
              · simp [hmap']
              · intro c hc'
                rcases List.mem_cons.1 hc' with rfl | hc''
                · refine ⟨rfl, hkp, ?_⟩
                  have hnpos : (0 : ℚ) < (n : ℚ) := by
                    exact_mod_cast Nat.pos_of_ne_zero hn
                  have := hth l (by simp)
                  positivity
                · exact hprops' c hc''
              · simp only [List.map_cons, List.zipWith_cons_cons, hzip']
                have hn' : (n : ℚ) ≠ 0 := Nat.cast_ne_zero.2 hn
                have hk' : k ≠ 0 := ne_of_gt hkp
                congr 1
                field_simp
                ring

theorem picard_const_fixed (clamp : Bool) (cells : List CellSpec)
    (Tl Ti R_conv tol : ℚ) (maxit : Nat)
    (hcells : ∀ c ∈ cells, c.use_kT = false ∧ 0 < c.k_const)
    (htol : 0 < tol) (hmi : maxit ≠ 0) (q : ℚ)
    (hq : q = (Tl - Ti) / ((cells.map fun c => c.dx / c.k_const).sum + R_conv)) :
    picardLoop clamp cells Tl Ti R_conv tol maxit
      ⟨walkTemps Tl q (cells.map fun c => c.dx / c.k_const), q⟩
      = .ok ⟨walkTemps Tl q (cells.map fun c => c.dx / c.k_const), q⟩ := by
  obtain ⟨m, rfl⟩ : ∃ m, maxit = m + 1 := ⟨maxit - 1, by omega⟩
  have hcr : cellResistances clamp cells
      (walkTemps Tl q (cells.map fun c => c.dx / c.k_const))
      = .ok (cells.map fun c => c.dx / c.k_const) := by
    refine cellResistances_const clamp cells _
      (fun c hc => (hcells c hc).1) (fun c hc => (hcells c hc).2) ?_
    rw [walkTemps_length]
    simp
  have hstep : picardStep clamp cells Tl Ti R_conv
      ⟨walkTemps Tl q (cells.map fun c => c.dx / c.k_const), q⟩
      = .ok (⟨walkTemps Tl q (cells.map fun c => c.dx / c.k_const), q⟩, 0) := by
    simp only [picardStep, hcr]
    rw [← hq, maxAbsDiff_self]
  simp only [picardLoop, hstep, if_pos htol]

/-- C2: on a stack in which no layer uses temperature-dependent
conductivity (every resolved conductivity is a fixed positive constant)
and with valid boundary conditions, `solve_multilayer_kT` succeeds and
returns exactly the flux and interface temperatures of the linear
constant-k solver `_solve_constant_k` on the same inputs — equality is
exact in rational arithmetic, hence within the claimed 1e-9. -/
theorem C2_constant_stack_equiv (store : MaterialStore) (layers : List Layer)
    (Tl Ti h : ℚ) (n : Nat) (tol : ℚ) (maxit : Nat) (clamp : Bool)
    (ks : List ℚ)
    (hne : layers ≠ []) (hh : 0 < h) (htol : 0 < tol) (hmi : maxit ≠ 0)
    (hn : n ≠ 0)
    (hkT : ∀ l ∈ layers, l.use_kT = false)
    (hth : ∀ l ∈ layers, 0 < l.thickness_mm)
    (hks : mapE (resolveConstK store) layers = .ok ks)
    (hkpos : ∀ k ∈ ks, 0 < k) :
    ∃ r r', solve_multilayer_kT store layers Tl Ti h n tol maxit clamp = .ok r
      ∧ solve_constant_k layers ks Tl Ti h = .ok r'
      ∧ r.q_W_m2 = r'.q_W_m2
      ∧ r.interface_T_C = r'.interface_T_C := by
  obtain ⟨specs, hres, hmapk, hprops, hzip⟩ :=
    mapE_resolveLayer_const store n ((Tl + Ti) / 2) hn layers ks hks hkT hth hkpos
  have hmk := mkResistances_ok (layers.map fun l => l.thickness_mm / 1000) ks hkpos
  have hlin : solve_constant_k layers ks Tl Ti h
      = .ok ⟨(Tl - Ti) / ((List.zipWith (fun t k => t / k)
            (layers.map fun l => l.thickness_mm / 1000) ks).sum + 1 / h),
          walkTemps Tl ((Tl - Ti) / ((List.zipWith (fun t k => t / k)
            (layers.map fun l => l.thickness_mm / 1000) ks).sum + 1 / h))
            (List.zipWith (fun t k => t / k)
              (layers.map fun l => l.thickness_mm / 1000) ks),
          cumFrom 0 (layers.map fun l => l.thickness_mm / 1000),
          walkTemps Tl ((Tl - Ti) / ((List.zipWith (fun t k => t / k)
            (layers.map fun l => l.thickness_mm / 1000) ks).sum + 1 / h))
            (List.zipWith (fun t k => t / k)
              (layers.map fun l => l.thickness_mm / 1000) ks)⟩ := by
    simp only [solve_constant_k, hmk]
  have hsums : (((expandCells n specs).map fun c => c.dx / c.k_const)).sum
      = (List.zipWith (fun t k => t / k)
          (layers.map fun l => l.thickness_mm / 1000) ks).sum := by
    rw [map_expandCells_sum, hzip]
  have hloop := picard_const_fixed clamp (expandCells n specs) Tl Ti (1 / h)
    tol maxit
    (fun c hc =>
      ⟨(hprops c (mem_expandCells n specs c hc)).1,
       (hprops c (mem_expandCells n specs c hc)).2.1⟩)
    htol hmi
    ((Tl - Ti) / ((List.zipWith (fun t k => t / k)
      (layers.map fun l => l.thickness_mm / 1000) ks).sum + 1 / h))
    (by rw [hsums])
  have hsolve : solve_multilayer_kT store layers Tl Ti h n tol maxit clamp
      = .ok ⟨(Tl - Ti) / ((List.zipWith (fun t k => t / k)
            (layers.map fun l => l.thickness_mm / 1000) ks).sum + 1 / h),
          projectInterfaces n specs.length Tl
            (walkTemps Tl ((Tl - Ti) / ((List.zipWith (fun t k => t / k)
              (layers.map fun l => l.thickness_mm / 1000) ks).sum + 1 / h))
              ((expandCells n specs).map fun c => c.dx / c.k_const)),
          cumFrom 0 ((expandCells n specs).map fun c => c.dx),
          walkTemps Tl ((Tl - Ti) / ((List.zipWith (fun t k => t / k)
            (layers.map fun l => l.thickness_mm / 1000) ks).sum + 1 / h))
            ((expandCells n specs).map fun c => c.dx / c.k_const)⟩ := by
    simp only [solve_multilayer_kT, if_neg hne, if_neg (not_le.2 hh),
      if_neg (not_le.2 htol), if_neg hmi, if_neg hn, hres, hmapk, hlin, hloop]
  refine ⟨_, _, hsolve, hlin, rfl, ?_⟩
  have hRslen : (List.zipWith (fun t k => t / k)
      (layers.map fun l => l.thickness_mm / 1000) ks).length = specs.length := by
    rw [hzip]
    simp
  refine ext_getD _ _ ?_ ?_
  · rw [projectInterfaces_length, walkTemps_length, hRslen]
  · intro i hi
    rw [projectInterfaces_length] at hi
    cases i with
    | zero =>
        rw [projectInterfaces_getD_zero, walkTemps_head]
    | succ j =>
        have hj : j < specs.length := by omega
        rw [projectInterfaces_getD_succ n specs.length Tl _ j hj]
        rw [walkTemps_getD _ _ _ ((j + 1) * n)
          (by rw [List.length_map, expandCells_length]
              exact Nat.mul_le_mul_right n (by omega))]
        rw [walkTemps_getD _ _ _ (j + 1) (by rw [hRslen]; omega)]
        rw [map_expandCells_take_sum n _ specs (j + 1) (by omega)]
        rw [List.map_take, ← hzip]

/-- C2 witness: scenario A's two-layer constant stack (50 mm of 0.04 and
100 mm of 0.12 W/mK), solved with 2 cells per layer. -/
theorem C2_constant_stack_equiv_witness :
    ∃ r r', solve_multilayer_kT (fun _ => none)
        [⟨50, .custom, none, false, some (1/25)⟩,
         ⟨100, .custom, none, false, some (3/25)⟩]
        20 (-10) 25 2 (1/1000) 200 true = .ok r
      ∧ solve_constant_k
          [⟨50, .custom, none, false, some (1/25)⟩,
           ⟨100, .custom, none, false, some (3/25)⟩]
          [1/25, 3/25] 20 (-10) 25 = .ok r'
      ∧ r.q_W_m2 = r'.q_W_m2
      ∧ r.interface_T_C = r'.interface_T_C :=
  C2_constant_stack_equiv (fun _ => none)
    [⟨50, .custom, none, false, some (1/25)⟩,
     ⟨100, .custom, none, false, some (3/25)⟩]
    20 (-10) 25 2 (1/1000) 200 true [1/25, 3/25]
    (by simp) (by norm_num) (by norm_num) (by decide) (by decide)
    (by intro l hl; fin_cases hl <;> rfl)
    (by intro l hl; fin_cases hl <;> norm_num)
    (by norm_num [mapE, resolveConstK])
    (by intro k hk; fin_cases hk <;> norm_num)

theorem pairwise_le_getLast :
    ∀ (l : List (ℚ × ℚ)) (hne : l ≠ [])
      (hsort : List.Pairwise (fun a b => a.1 < b.1) l),
      ∀ x ∈ l, x.1 ≤ (l.getLast hne).1 := by
  intro l
  induction l with
  | nil => intro hne; exact absurd rfl hne
  | cons p rest ih =>
      intro hne hsort x hx
      cases rest with
      | nil =>
          rcases List.mem_singleton.1 hx with rfl
          exact le_refl _
      | cons q rest' =>
          have htail := (List.pairwise_cons.1 hsort).2
          have hhead := (List.pairwise_cons.1 hsort).1
          rw [List.getLast_cons (by simp)]
          rcases List.mem_cons.1 hx with rfl | hx'
          · exact le_of_lt (hhead _ (List.getLast_mem (by simp)))
          · exact ih (by simp) htail x hx'

theorem scanBrackets_append (T : ℚ) :
    ∀ (pre : List (ℚ × ℚ)) (a b : ℚ × ℚ) (post : List (ℚ × ℚ)),
      List.Pairwise (fun x y => x.1 < y.1) (pre ++ a :: b :: post) →
      a.1 ≤ T → T ≤ b.1 →
      scanBrackets T (pre ++ a :: b :: post)
        = some (a.2 + (T - a.1) / (b.1 - a.1) * (b.2 - a.2)) := by
  intro pre
  induction pre with
  | nil =>
      intro a b post hsort ha hb
      obtain ⟨a1, a2⟩ := a
      obtain ⟨b1, b2⟩ := b
      have hab : a1 < b1 := (List.pairwise_cons.1 hsort).1 (b1, b2) (by simp)
      simp only [List.nil_append, scanBrackets]
      rw [if_pos ⟨ha, hb⟩, if_neg (ne_of_gt hab)]
  | cons q0 pre' ih =>
      intro a b post hsort ha hb
      obtain ⟨q01, q02⟩ := q0
      have hhead := (List.pairwise_cons.1 hsort).1
      have htail := (List.pairwise_cons.1 hsort).2
      cases pre' with
      | nil =>
          obtain ⟨a1, a2⟩ := a
          obtain ⟨b1, b2⟩ := b
          have hq0a : q01 < a1 := hhead (a1, a2) (by simp)
          have hab : a1 < b1 :=
            (List.pairwise_cons.1 htail).1 (b1, b2) (by simp)
          by_cases hTa : T ≤ a1
          · have hT : T = a1 := le_antisymm hTa ha
            simp only [List.cons_append, List.nil_append, scanBrackets]
            rw [if_pos ⟨le_of_lt (hT ▸ hq0a), hTa⟩, if_neg (ne_of_gt hq0a)]
            have h1 : a1 - q01 ≠ 0 := sub_ne_zero.2 (ne_of_gt hq0a)
            rw [hT]
            congr 1
            field_simp
          · simp only [List.cons_append, List.nil_append, scanBrackets]
            rw [if_neg (fun hc => hTa hc.2)]
            exact ih (a1, a2) (b1, b2) post htail ha hb
      | cons q1 pre'' =>
          obtain ⟨q11, q12⟩ := q1
          have hq1a : q11 < a.1 :=
            (List.pairwise_cons.1 htail).1 a (by simp)
          have hTq1 : ¬T ≤ q11 := not_le.2 (lt_of_lt_of_le hq1a ha)
          simp only [List.cons_append, scanBrackets]
          rw [if_neg (fun hc => hTq1 hc.2)]
          exact ih a b post htail ha hb

/-- C7: for a material with at least two sample points with strictly
increasing temperatures (the store keeps points sorted with unique
temperatures, so the degenerate `T1 == T0` branch of the scan is
unreachable), clamp-mode `interp_k` returns the first point's
conductivity at or below the minimum, the last point's at or above the
maximum, and the linear interpolation
`k0 + (T - T0)/(T1 - T0) * (k1 - k0)` on any bracketing pair of
consecutive points. -/
theorem C7_clamp_interpolation (m : Material) (T : ℚ) (p0 p1 : ℚ × ℚ)
    (ps : List (ℚ × ℚ)) (hpts : m.k_points = p0 :: p1 :: ps)
    (hsort : List.Pairwise (fun a b => a.1 < b.1) m.k_points) :
    (T ≤ p0.1 → interp_k m T "clamp" = .ok p0.2)
    ∧ (((p0 :: p1 :: ps).getLast (by simp)).1 ≤ T →
        interp_k m T "clamp" = .ok (((p0 :: p1 :: ps).getLast (by simp)).2))
    ∧ (∀ (pre post : List (ℚ × ℚ)) (a b : ℚ × ℚ),
        p0 :: p1 :: ps = pre ++ a :: b :: post →
        a.1 ≤ T → T ≤ b.1 →
        interp_k m T "clamp"
          = .ok (a.2 + (T - a.1) / (b.1 - a.1) * (b.2 - a.2))) := by
  rw [hpts] at hsort
  have hid : sortPoints m.k_points = p0 :: p1 :: ps := by
    rw [hpts]
    exact sortPoints_of_sorted _ (hsort.imp le_of_lt)
  have hik : interp_k m T "clamp" = .ok (interpSorted (p0 :: p1 :: ps) T) := by
    rw [interp_k_clamp_of_points m T (by simp [hpts]), hid]
  have hhead := (List.pairwise_cons.1 hsort).1
  have hp0last : p0.1 < ((p1 :: ps).getLast (by simp)).1 :=
    hhead _ (List.getLast_mem (by simp))
  have hlast_eq : (p0 :: p1 :: ps).getLast (by simp)
      = (p1 :: ps).getLast (by simp) := List.getLast_cons (by simp)
  refine ⟨?_, ?_, ?_⟩
  · intro hT
    rw [hik]
    simp only [interpSorted]
    rw [if_pos hT]
  · intro hT
    rw [hlast_eq] at hT
    rw [hik]
    simp only [interpSorted]
    rw [if_neg (not_le.2 (lt_of_lt_of_le hp0last hT)), if_pos hT, hlast_eq]
  · intro pre post a b heq ha hb
    have hsort' : List.Pairwise (fun x y => x.1 < y.1)
        (pre ++ a :: b :: post) := heq ▸ hsort
    have hab : a.1 < b.1 :=
      (List.pairwise_cons.1 ((List.pairwise_append.1 hsort').2.1)).1 b (by simp)
    by_cases hT0 : T ≤ p0.1
    · cases pre with
      | cons q pre' =>
          exfalso
          rw [List.cons_append] at heq
          injection heq with hq htail
          have hamem : a ∈ p1 :: ps := by rw [htail]; simp
          have h1 : p0.1 < a.1 := hhead a hamem
          have h2 : a.1 ≤ p0.1 := le_trans ha hT0
          linarith
      | nil =>
          simp only [List.nil_append] at heq
          injection heq with h1 h2
          injection h2 with h3 h4
          subst h1
          subst h3
          have hTa : T = p0.1 := le_antisymm hT0 ha
          rw [hik]
          simp only [interpSorted]
          rw [if_pos hT0, hTa]
          simp
    · push_neg at hT0
      by_cases hTlast : ((p1 :: ps).getLast (by simp)).1 ≤ T
      · cases post with
        | cons c post' =>
            exfalso
            have hl2 : (c :: post').getLast? = some ((c :: post').getLast (by simp)) :=
              (List.getLast_mem_getLast? (by simp)).symm
            have hlq : (p0 :: p1 :: ps).getLast? = (c :: post').getLast? := by
              rw [heq, show pre ++ a :: b :: c :: post'
                  = (pre ++ [a, b]) ++ c :: post' by simp,
                List.getLast?_append, hl2]
              simp
            have hl1 : (p0 :: p1 :: ps).getLast? = some ((p1 :: ps).getLast (by simp)) := by
              rw [← hlast_eq]
              exact (List.getLast_mem_getLast? (by simp)).symm
            have hlasts : (p1 :: ps).getLast (by simp) = (c :: post').getLast (by simp) := by
              have := hl1.symm.trans (hlq.trans hl2)
              exact Option.some.inj this
            have hblast : b.1 < ((c :: post').getLast (by simp)).1 := by
              have hpw := (List.pairwise_append.1 hsort').2.1
              have hb2 := (List.pairwise_cons.1 ((List.pairwise_cons.1 hpw).2)).1
              exact hb2 _ (List.getLast_mem (by simp))
            rw [hlasts] at hTlast
            linarith [le_trans hTlast hb]
        | nil =>
            have hlb : (p1 :: ps).getLast (by simp) = b := by
              have hlq : (p0 :: p1 :: ps).getLast? = some b := by
                rw [heq, show pre ++ [a, b] = (pre ++ [a]) ++ [b] by simp,
                  List.getLast?_concat]
              have hl1 : (p0 :: p1 :: ps).getLast?
                  = some ((p1 :: ps).getLast (by simp)) := by
                rw [← hlast_eq]
                exact (List.getLast_mem_getLast? (by simp)).symm
              exact Option.some.inj (hl1.symm.trans hlq)
            have hTb : T = b.1 := by
              rw [hlb] at hTlast
              exact le_antisymm hb hTlast
            rw [hik]
            simp only [interpSorted]
            rw [if_neg (not_le.2 hT0), if_pos (by rw [hlb, ← hTb]), hlb, hTb]
            have h1 : b.1 - a.1 ≠ 0 := sub_ne_zero.2 (ne_of_gt hab)
            congr 1
            field_simp
      · rw [hik]
        simp only [interpSorted]
        rw [if_neg (not_le.2 hT0), if_neg hTlast, heq,
          scanBrackets_append T pre a b post hsort' ha hb]

/-- C7 witness: scenario B's material, interpolating to 0.04 at 50 C
(bracketed by the two points) and clamping to 0.05 at 150 C. -/
theorem C7_clamp_interpolation_witness :
    interp_k mScenB 50 "clamp" = .ok (1/25)
    ∧ interp_k mScenB 150 "clamp" = .ok (1/20) := by
  constructor
  · have h50 := (C7_clamp_interpolation mScenB 50 (0, 3/100) (100, 1/20) []
      rfl (by norm_num [mScenB, List.pairwise_cons])).2.2 [] [] (0, 3/100) (100, 1/20)
      rfl (by norm_num) (by norm_num)
    rw [h50]
    norm_num
  · have h150 := (C7_clamp_interpolation mScenB 150 (0, 3/100) (100, 1/20) []
      rfl (by norm_num [mScenB, List.pairwise_cons])).2.1 (by norm_num [List.getLast])
    rw [h150]
    norm_num [List.getLast]

end Isolierung
